import Mathlib

/-!
A verification development of gorm-demo.

Shallow embedding of the two Go programs of the repository.

* `kea.go`: records of the Kea DHCPv4 configuration backend (servers, shared
  networks, subnets), the `BeforeCreate` hooks, the two lookups and the two
  create operations with their audit revision.
* `ip_convert.go`: a 32-bit value written into a 4-byte address in big-endian order
  and read back.

The Go code talks to MySQL through the gorm library (`github.com/jinzhu/gorm`).
The library and the store are the environment of the program: they are modelled
in the section "Environment", with every outcome the program cannot control
(driver failures, the clock, store-assigned identifiers, the capacity a grown
slice gets) given as an explicit input of type `Env`.  The `Servers` fields are
Go slices: a slice is a window on a backing array that other slices may share,
so the backing arrays are kept in a heap and `append` is the runtime's, writing
in place when there is spare capacity.  The functions of the repository are translated
statement by statement in the section "Program".

Two places of `kea.go` are not valid Go as they stand.  The method
`DHCP4SharedNetwork.Create` (lines 59-61) has an empty body and no caller; it is
left out.  `CreateSubnet4` calls `audit(db, server.Tag)` (line 146) with two of
the three arguments; the absent message is an input of the model
(`Env.helperMessage`) and no property below depends on its value.
-/

namespace Kea

/-! ## Go machine integers -/

/-- Go's `int` on a 64-bit platform: two's complement wrap-around. -/
def wrapInt (x : Int) : Int := (x + 2 ^ 63) % 2 ^ 64 - 2 ^ 63

/-- Largest value of Go's `int`. -/
def maxInt : Int := 2 ^ 63 - 1

/-- Smallest value of Go's `int`. -/
def minInt : Int := -(2 ^ 63)

/-- A value a Go `int` can hold. -/
def inIntRange (x : Int) : Prop := minInt ≤ x ∧ x ≤ maxInt

instance (x : Int) : Decidable (inIntRange x) := by
  unfold inIntRange; exact inferInstance

/-- The type `time.Time`, as an instant count; the zero value is `0`. -/
abbrev Time := Nat

/-! ## Data model (`kea.go`, lines 12-100) -/

/-- The struct `DHCP4GlobalParameter`. -/
structure DHCP4GlobalParameter where
  ID : Int
  deriving DecidableEq

/-- The struct `DHCP4Params`; a nil pointer is `none`, a `*float32` is kept as its
bit pattern. -/
structure DHCP4Params where
  BootFileName : Option String
  NextServer : Option Int
  ServerHostName : Option String
  ClientClass : Option String
  Interface : Option String
  MatchClientID : Bool
  Relay : Option String
  RequireClientClasses : Option String
  ReservationMode : Option Int
  Authoritative : Bool
  ValidLifetime : Option Int
  RebindTimer : Option Int
  RenewTimer : Option Int
  CalculateTeeTimes : Bool
  T1Percent : Option Nat
  T2Percent : Option Nat
  MinValidLifetime : Option Int
  MaxValidLifetime : Option Int
  DDNSSendUpdates : Bool
  DDNSOverrideNoUpdates : Bool
  DDNSOverrideClientUpdate : Bool
  DDNSReplaceClientName : Option Int
  DDNSGeneratedPrefix : Option String
  DDNSQualifyingSuffix : Option String
  UserContext : Option String
  ModifiedAt : Time
  deriving DecidableEq

/-- The struct `DHCP4Server`. -/
structure DHCP4Server where
  ID : Int
  Tag : String
  Description : String
  ModifiedAt : Time
  deriving DecidableEq

/-- A non-nil Go slice `[]*DHCP4Server`: its backing array, given by its place in
the heap, the offset of its first element in that array, its length and its
capacity. -/
structure Slice where
  arr : Nat
  off : Nat
  len : Nat
  cap : Nat
  deriving DecidableEq

/-- The backing arrays of the program's `[]*DHCP4Server` slices.  An element is a
`*DHCP4Server`, kept as the server it points to, `none` for the nil pointer: no
statement of the program writes through such a pointer. -/
abbrev Heap := List (List (Option DHCP4Server))

/-- The struct `DHCP4SharedNetwork`; `Servers` is a slice, `none` is the nil slice. -/
structure DHCP4SharedNetwork where
  ID : Int
  Name : String
  Servers : Option Slice
  Params : DHCP4Params
  deriving DecidableEq

/-- The struct `DHCP4Subnet`; `SharedNetworkName` is a `*string`, `Servers` a slice. -/
structure DHCP4Subnet where
  ID : Int
  Prefix : String
  V4To6Interface : Option String
  V4To6InterfaceID : Option String
  V4To6Subnet : Option String
  SharedNetworkName : Option String
  Servers : Option Slice
  Params : DHCP4Params
  deriving DecidableEq

/-- Go zero value `DHCP4Params{}`. -/
def DHCP4Params.zero : DHCP4Params :=
  { BootFileName := none, NextServer := none, ServerHostName := none, ClientClass := none,
    Interface := none, MatchClientID := false, Relay := none, RequireClientClasses := none,
    ReservationMode := none, Authoritative := false, ValidLifetime := none,
    RebindTimer := none, RenewTimer := none, CalculateTeeTimes := false, T1Percent := none,
    T2Percent := none, MinValidLifetime := none, MaxValidLifetime := none,
    DDNSSendUpdates := false, DDNSOverrideNoUpdates := false,
    DDNSOverrideClientUpdate := false, DDNSReplaceClientName := none,
    DDNSGeneratedPrefix := none, DDNSQualifyingSuffix := none, UserContext := none,
    ModifiedAt := 0 }

/-- Go zero value `DHCP4Server{}`. -/
def DHCP4Server.zero : DHCP4Server :=
  { ID := 0, Tag := "", Description := "", ModifiedAt := 0 }

/-- Go zero value `DHCP4SharedNetwork{}`. -/
def DHCP4SharedNetwork.zero : DHCP4SharedNetwork :=
  { ID := 0, Name := "", Servers := none, Params := DHCP4Params.zero }

/-- Go zero value `DHCP4Subnet{}`. -/
def DHCP4Subnet.zero : DHCP4Subnet :=
  { ID := 0, Prefix := "", V4To6Interface := none, V4To6InterfaceID := none,
    V4To6Subnet := none, SharedNetworkName := none, Servers := none,
    Params := DHCP4Params.zero }

/-- The elements of a Go slice in the heap `h`, the nil slice having none. -/
def Heap.elems (h : Heap) (servers : Option Slice) : List (Option DHCP4Server) :=
  match servers with
  | none => []
  | some s => ((h.getD s.arr []).drop s.off).take s.len

/-- A slice lies within its backing array: the length is at most the capacity
and the capacity ends inside the array (a slice of capacity 0 needs no array). -/
def Heap.valid (h : Heap) (servers : Option Slice) : Prop :=
  match servers with
  | none => True
  | some s => s.len ≤ s.cap ∧ s.off + s.cap ≤ (h.getD s.arr []).length

instance (h : Heap) (servers : Option Slice) : Decidable (h.valid servers) := by
  unfold Heap.valid
  cases servers <;> exact inferInstance

/-- Two slices share a backing array; the nil slice shares none. -/
def sharesArray (a b : Option Slice) : Prop :=
  match a, b with
  | some s, some t => s.arr = t.arr
  | _, _ => False

instance (a b : Option Slice) : Decidable (sharesArray a b) := by
  unfold sharesArray
  cases a <;> cases b <;> exact inferInstance

/-- Go's `make([]*DHCP4Server, 0)`: a non-nil slice of length and capacity 0. -/
def makeSlice : Slice := { arr := 0, off := 0, len := 0, cap := 0 }

/-- Go's `append(s, x)` for one element.  With spare capacity the element is
written into the backing array right after the last one and the slice grows by
one over the same array; every slice sharing that array sees the write.
Without, the runtime allocates a new array holding the elements and `x`, of a
capacity `growCap` of its choosing (at least the new length), the further slots
nil. -/
def goAppend (h : Heap) (s : Slice) (x : Option DHCP4Server) (growCap : Nat) : Heap × Slice :=
  if s.len < s.cap then
    (h.set s.arr ((h.getD s.arr []).set (s.off + s.len) x), { s with len := s.len + 1 })
  else
    (h ++ [Heap.elems h (some s) ++ [x] ++
        List.replicate (max growCap (s.len + 1) - (s.len + 1)) none],
      { arr := h.length, off := 0, len := s.len + 1, cap := max growCap (s.len + 1) })

/-- The statement `if servers == nil { servers = make([]*DHCP4Server, 0) }`. -/
def orMake (servers : Option Slice) : Slice :=
  match servers with
  | none => makeSlice
  | some s => s

/-- The statements `servers := x.Servers; if servers == nil { servers =
make([]*DHCP4Server, 0) }; servers = append(servers, server)` of both create
operations (lines 132-136 and 151-155): the heap and the slice they leave. -/
def appendServer (h : Heap) (servers : Option Slice) (server : DHCP4Server)
    (growCap : Nat) : Heap × Slice :=
  goAppend h (orMake servers) (some server) growCap

/-! ## Environment: gorm and the MySQL store -/

/-- Errors a gorm call can carry in its `Error` field. -/
inductive GormError where
  | ErrRecordNotFound
  | duplicateEntry (key : String)
  | driver (msg : String)
  deriving DecidableEq

/-- The two fields of a `*gorm.DB` result the program reads. -/
structure DB where
  Error : Option GormError
  RowsAffected : Int
  deriving DecidableEq

/-- gorm's `RecordNotFound()`: the `Error` field holds `ErrRecordNotFound`. -/
def DB.RecordNotFound (db : DB) : Bool :=
  db.Error == some GormError.ErrRecordNotFound

/-- A row written by the stored procedure `createAuditRevisionDHCP4`. -/
structure AuditRevision where
  ts : Time
  serverTag : String
  message : String
  affectsConfig : Bool
  deriving DecidableEq

/-- The tables of the store the program touches.  Entity rows are kept as the
struct with a nil `Servers`; the associations live in the join tables as
(entity id, server id). -/
structure Tables where
  dhcp4_server : List DHCP4Server
  dhcp4_shared_network : List DHCP4SharedNetwork
  dhcp4_shared_network_server : List (Int × Int)
  dhcp4_subnet : List DHCP4Subnet
  dhcp4_subnet_server : List (Int × Int)
  dhcp4_audit_revision : List AuditRevision
  deriving DecidableEq

/-- No rows at all. -/
def Tables.empty : Tables :=
  { dhcp4_server := [], dhcp4_shared_network := [], dhcp4_shared_network_server := [],
    dhcp4_subnet := [], dhcp4_subnet_server := [], dhcp4_audit_revision := [] }

/-- Rows of `t` followed by the rows of `u`, table by table. -/
def Tables.append (t u : Tables) : Tables :=
  { dhcp4_server := t.dhcp4_server ++ u.dhcp4_server,
    dhcp4_shared_network := t.dhcp4_shared_network ++ u.dhcp4_shared_network,
    dhcp4_shared_network_server :=
      t.dhcp4_shared_network_server ++ u.dhcp4_shared_network_server,
    dhcp4_subnet := t.dhcp4_subnet ++ u.dhcp4_subnet,
    dhcp4_subnet_server := t.dhcp4_subnet_server ++ u.dhcp4_subnet_server,
    dhcp4_audit_revision := t.dhcp4_audit_revision ++ u.dhcp4_audit_revision }

/-- Calls on transaction handles, in the order they happen. -/
inductive TxEvent where
  | begin (tx : Nat)
  | commit (tx : Nat)
  | rollback (tx : Nat)
  deriving DecidableEq

/-- The state an operation runs in.  The store behind the `*gorm.DB` connection:
the committed tables, the open transactions each with its uncommitted writes,
the next transaction handle and the history of transaction calls.  And the
program's own memory: the heap of backing arrays. -/
structure Store where
  committed : Tables
  pending : List (Nat × Tables)
  nextTx : Nat
  log : List TxEvent
  heap : Heap
  deriving DecidableEq

/-- Outcomes decided outside the program during one operation. -/
structure Env where
  /-- Value of `time.Now()` in the audit statement. -/
  auditNow : Time
  /-- Error of `tx.Exec("call createAuditRevisionDHCP4(?,?,?,?)", ...)`, if any. -/
  execErr : Option GormError
  /-- Value of `time.Now()` in the `BeforeCreate` hook. -/
  hookNow : Time
  /-- Driver error of the query run by the subnet hook, if any. -/
  queryErr : Option GormError
  /-- Driver error of the statements of `Create`, if any. -/
  insertErr : Option GormError
  /-- Identifier the store assigns to a row inserted with a blank primary key. -/
  insertId : Int
  /-- Error of `tx.Commit()`, if any. -/
  commitErr : Option GormError
  /-- Message of the call `audit(db, server.Tag)` in `CreateSubnet4`, which the
  source leaves out. -/
  helperMessage : String
  /-- Value of `time.Now()` inside `audit`. -/
  helperNow : Time
  /-- Error of the `Exec` inside `audit`, if any. -/
  helperExecErr : Option GormError
  /-- Capacity the runtime picks when `append` has to grow the slice. -/
  growCap : Nat
  deriving DecidableEq

/-- Handles of the open transactions. -/
def Store.openTxs (db : Store) : List Nat := db.pending.map Prod.fst

/-- Uncommitted writes of transaction `tx`. -/
def Store.writes (db : Store) (tx : Nat) : Tables :=
  match db.pending.lookup tx with
  | some t => t
  | none => Tables.empty

/-- What a statement run on `tx` reads: the committed rows and its own writes. -/
def Store.view (db : Store) (tx : Nat) : Tables :=
  db.committed.append (db.writes tx)

/-- Apply a write to the uncommitted rows of `tx`. -/
def Store.write (db : Store) (tx : Nat) (f : Tables → Tables) : Store :=
  { db with pending := db.pending.map (fun p => if p.1 = tx then (p.1, f p.2) else p) }

/-- gorm `db.Begin()`: a fresh transaction with no writes.  A `Begin` that the
driver refuses is not modelled. -/
def Store.Begin (db : Store) : Store × Nat :=
  ({ db with
      pending := db.pending ++ [(db.nextTx, Tables.empty)],
      nextTx := db.nextTx + 1,
      log := db.log ++ [TxEvent.begin db.nextTx] }, db.nextTx)

/-- gorm `tx.Rollback()`: the writes of `tx` are dropped and `tx` is closed. -/
def Store.Rollback (db : Store) (tx : Nat) : Store :=
  { db with
    pending := db.pending.filter (fun p => p.1 ≠ tx),
    log := db.log ++ [TxEvent.rollback tx] }

/-- gorm `tx.Commit()`: without a driver error the writes of `tx` become
committed; with one nothing is committed.  Either way `tx` is closed. -/
def Store.Commit (db : Store) (tx : Nat) (err : Option GormError) : Store × DB :=
  match err with
  | none =>
    ({ db with
        committed := db.committed.append (db.writes tx),
        pending := db.pending.filter (fun p => p.1 ≠ tx),
        log := db.log ++ [TxEvent.commit tx] }, { Error := none, RowsAffected := 0 })
  | some e =>
    ({ db with
        pending := db.pending.filter (fun p => p.1 ≠ tx),
        log := db.log ++ [TxEvent.commit tx] }, { Error := some e, RowsAffected := 0 })

/-- gorm `tx.Exec("call createAuditRevisionDHCP4(?,?,?,?)", ts, tag, msg, flag)`.
The procedure appends one revision to the writes of `tx`.  When the statement
fails nothing is written and the error is carried by the returned value only:
gorm works on a clone of `tx`, and MySQL keeps the transaction usable. -/
def Store.ExecCreateAuditRevisionDHCP4 (db : Store) (tx : Nat) (ts : Time)
    (serverTag message : String) (flag : Bool) (err : Option GormError) : Store × DB :=
  match err with
  | some e => (db, { Error := some e, RowsAffected := 0 })
  | none =>
    (db.write tx (fun t =>
        { t with dhcp4_audit_revision :=
            t.dhcp4_audit_revision ++
              [{ ts := ts, serverTag := serverTag, message := message, affectsConfig := flag }] }),
      { Error := none, RowsAffected := 1 })

/-- What the subnet hook reaches through its `*gorm.Scope`: the rows of
`dhcp4_subnet` visible to `scope.DB()`, the outcome of the driver for its query,
and the clock. -/
structure Scope where
  rows : List DHCP4Subnet
  queryErr : Option GormError
  now : Time

/-- One step of the scan for the last row: keep the row with the greater key. -/
def lastStep (best : Option DHCP4Subnet) (r : DHCP4Subnet) : Option DHCP4Subnet :=
  match best with
  | none => some r
  | some b => if b.ID < r.ID then some r else some b

/-- The row with the greatest primary key (`ORDER BY subnet_id DESC LIMIT 1`). -/
def lastRow (rows : List DHCP4Subnet) : Option DHCP4Subnet :=
  rows.foldl lastStep none

/-- gorm `scope.DB().Last(&out)` for a struct `out`: on a driver error the error is
set; when no row is found gorm sets `ErrRecordNotFound` and leaves `out` as it
was; otherwise the last row is scanned into `out` and one row is counted. -/
def Scope.Last (scope : Scope) (out : DHCP4Subnet) : DB × DHCP4Subnet :=
  match scope.queryErr with
  | some e => ({ Error := some e, RowsAffected := 0 }, out)
  | none =>
    match lastRow scope.rows with
    | none => ({ Error := some GormError.ErrRecordNotFound, RowsAffected := 0 }, out)
    | some r => ({ Error := none, RowsAffected := 1 }, r)

/-- gorm `db.Table(t).Where(key = ?).Scan(&out)` for a struct `out`, given the rows
the condition matches: every matched row is counted and scanned into `out`, the
later over the earlier; a driver error or an empty result sets `Error`. -/
def scanInto {α : Type} (matched : List α) (queryErr : Option GormError) (out : α) : DB × α :=
  match queryErr with
  | some e => ({ Error := some e, RowsAffected := 0 }, out)
  | none =>
    match matched.getLast? with
    | none => ({ Error := some GormError.ErrRecordNotFound, RowsAffected := 0 }, out)
    | some r => ({ Error := none, RowsAffected := matched.length }, r)

/-- Join rows gorm adds for the `Servers` of an entity: one per server with a
non-blank primary key, none that exists already. -/
def newLinks (existing : List (Int × Int)) (entity : Int)
    (servers : List (Option DHCP4Server)) : List (Int × Int) :=
  ((((servers.filterMap id).filter (fun s => s.ID ≠ 0)).map
      (fun s => (entity, s.ID))).eraseDups).filter
    (fun l => !existing.contains l)

/-! ## Program (`kea.go`) -/

/-- `func (network *DHCP4SharedNetwork) BeforeCreate(scope *gorm.Scope) error`
(lines 54-57): the struct after the hook and the returned error. -/
def DHCP4SharedNetwork.BeforeCreate (network : DHCP4SharedNetwork) (now : Time) :
    DHCP4SharedNetwork × Option GormError :=
  -- scope.SetColumn("ModifiedAt", time.Now())
  let network := { network with Params := { network.Params with ModifiedAt := now } }
  (network, none)

/-- The statements of the subnet hook after the query (lines 81-91), for a query
result `db` and the scanned `lastSubnet4`. -/
def DHCP4Subnet.generateID (subnet : DHCP4Subnet) (db : DB) (lastSubnet4 : DHCP4Subnet) :
    DHCP4Subnet × Option GormError :=
  if db.Error ≠ none then
    (subnet, db.Error)
  else if db.RowsAffected = 1 then
    -- scope.SetColumn("ID", lastSubnet4.ID+1)
    ({ subnet with ID := wrapInt (lastSubnet4.ID + 1) }, none)
  else if db.RecordNotFound then
    -- scope.SetColumn("ID", 1)
    ({ subnet with ID := 1 }, none)
  else
    (subnet, db.Error)

/-- `func (subnet *DHCP4Subnet) BeforeCreate(scope *gorm.Scope) error`
(lines 76-92): the struct after the hook and the returned error. -/
def DHCP4Subnet.BeforeCreate (subnet : DHCP4Subnet) (scope : Scope) :
    DHCP4Subnet × Option GormError :=
  -- scope.SetColumn("ModifiedAt", time.Now())
  let subnet := { subnet with Params := { subnet.Params with ModifiedAt := scope.now } }
  -- lastSubnet4 := DHCP4Subnet{}; db := scope.DB().Last(&lastSubnet4)
  let lastSubnet4 := DHCP4Subnet.zero
  let res := scope.Last lastSubnet4
  subnet.generateID res.1 res.2

/-- gorm `tx.Table("dhcp4_shared_network").Create(network)`: the `BeforeCreate`
hook runs first and its error stops the insert; the insert fails on a driver
error and on a duplicate of the primary key or of the unique name; otherwise
the row and its join rows are written in `tx` and a blank `ID` is set to the
one the store assigned.  Returns the store, the struct as gorm leaves it and
the result. -/
def Store.CreateSharedNetwork (db : Store) (tx : Nat) (env : Env)
    (network : DHCP4SharedNetwork) : Store × DHCP4SharedNetwork × DB :=
  let hook := network.BeforeCreate env.hookNow
  let network := hook.1
  match hook.2 with
  | some e => (db, network, { Error := some e, RowsAffected := 0 })
  | none =>
    match env.insertErr with
    | some e => (db, network, { Error := some e, RowsAffected := 0 })
    | none =>
      let view := db.view tx
      let id := if network.ID = 0 then env.insertId else network.ID
      if view.dhcp4_shared_network.any (fun r => r.ID == id || r.Name == network.Name) then
        (db, network, { Error := some (GormError.duplicateEntry network.Name),
                        RowsAffected := 0 })
      else
        let network := { network with ID := id }
        let links := newLinks view.dhcp4_shared_network_server network.ID
          (db.heap.elems network.Servers)
        (db.write tx (fun t =>
            { t with
              dhcp4_shared_network := t.dhcp4_shared_network ++ [{ network with Servers := none }],
              dhcp4_shared_network_server := t.dhcp4_shared_network_server ++ links }),
          network, { Error := none, RowsAffected := 1 })

/-- gorm `tx.Table("dhcp4_subnet").Create(subnet)`: as for shared networks, with
the subnet hook reading the subnet rows visible in `tx` and the prefix as the
unique key. -/
def Store.CreateSubnet (db : Store) (tx : Nat) (env : Env) (subnet : DHCP4Subnet) :
    Store × DHCP4Subnet × DB :=
  let view := db.view tx
  let hook := subnet.BeforeCreate
    { rows := view.dhcp4_subnet, queryErr := env.queryErr, now := env.hookNow }
  let subnet := hook.1
  match hook.2 with
  | some e => (db, subnet, { Error := some e, RowsAffected := 0 })
  | none =>
    match env.insertErr with
    | some e => (db, subnet, { Error := some e, RowsAffected := 0 })
    | none =>
      let id := if subnet.ID = 0 then env.insertId else subnet.ID
      if view.dhcp4_subnet.any (fun r => r.ID == id || r.Prefix == subnet.Prefix) then
        (db, subnet, { Error := some (GormError.duplicateEntry subnet.Prefix),
                       RowsAffected := 0 })
      else
        let subnet := { subnet with ID := id }
        let links := newLinks view.dhcp4_subnet_server subnet.ID
          (db.heap.elems subnet.Servers)
        (db.write tx (fun t =>
            { t with
              dhcp4_subnet := t.dhcp4_subnet ++ [{ subnet with Servers := none }],
              dhcp4_subnet_server := t.dhcp4_subnet_server ++ links }),
          subnet, { Error := none, RowsAffected := 1 })

/-- The query and scan of `GetDHCP4Server` (line 105), on the committed rows. -/
def queryDHCP4Server (db : Store) (tag : String) (queryErr : Option GormError) :
    DB × DHCP4Server :=
  scanInto (db.committed.dhcp4_server.filter (fun r => r.Tag == tag)) queryErr
    DHCP4Server.zero

/-- `func GetDHCP4Server(db *gorm.DB, tag string) *DHCP4Server` (lines 103-110);
`none` is the nil pointer. -/
def GetDHCP4Server (db : Store) (tag : String) (queryErr : Option GormError) :
    Option DHCP4Server :=
  let res := queryDHCP4Server db tag queryErr
  let result := res.1
  let dhcp4Server := res.2
  if result.RowsAffected = 0 || dhcp4Server.Tag = "" then
    none
  else
    some dhcp4Server

/-- The query and scan of `GetSharedNetwork4` (line 115), on the committed rows. -/
def querySharedNetwork4 (db : Store) (name : String) (queryErr : Option GormError) :
    DB × DHCP4SharedNetwork :=
  scanInto (db.committed.dhcp4_shared_network.filter (fun r => r.Name == name)) queryErr
    DHCP4SharedNetwork.zero

/-- `func GetSharedNetwork4(db *gorm.DB, name string) *DHCP4SharedNetwork`
(lines 113-120); `none` is the nil pointer. -/
def GetSharedNetwork4 (db : Store) (name : String) (queryErr : Option GormError) :
    Option DHCP4SharedNetwork :=
  let res := querySharedNetwork4 db name queryErr
  let result := res.1
  let sharedNetwork := res.2
  if result.RowsAffected = 0 || sharedNetwork.Name = "" then
    none
  else
    some sharedNetwork

/-- `func audit(db *gorm.DB, serverTag, auditMessage string) *gorm.DB`
(lines 122-126): the store and the returned transaction handle. -/
def audit (db : Store) (serverTag auditMessage : String) (now : Time)
    (execErr : Option GormError) : Store × Nat :=
  -- tx := db.Begin()
  let b := db.Begin
  -- tx.Exec("call createAuditRevisionDHCP4(?,?,?,?)", time.Now(), serverTag, auditMessage, true)
  let e := b.1.ExecCreateAuditRevisionDHCP4 b.2 now serverTag auditMessage true execErr
  -- return tx
  (e.1, b.2)

/-- `func CreateSharedNetwork4(db, server, sharedNetwork) error` (lines 128-143):
the store, the struct behind the pointer `sharedNetwork` and the returned
error. -/
def CreateSharedNetwork4 (env : Env) (db : Store) (server : DHCP4Server)
    (sharedNetwork : DHCP4SharedNetwork) : Store × DHCP4SharedNetwork × Option GormError :=
  -- tx := db.Begin()
  let b := db.Begin
  let tx := b.2
  let auditMsg := "add new shared network: " ++ sharedNetwork.Name
  -- tx.Exec(...): the returned value is dropped
  let db := (b.1.ExecCreateAuditRevisionDHCP4 tx env.auditNow server.Tag auditMsg true
    env.execErr).1
  let servers := sharedNetwork.Servers
  -- if servers == nil { servers = make([]*DHCP4Server, 0) }
  let servers := match servers with
    | none => makeSlice
    | some s => s
  -- servers = append(servers, server)
  let a := goAppend db.heap servers (some server) env.growCap
  let db := { db with heap := a.1 }
  -- sharedNetwork.Servers = servers
  let sharedNetwork := { sharedNetwork with Servers := some a.2 }
  let c := db.CreateSharedNetwork tx env sharedNetwork
  let result := c.2.2
  if result.Error ≠ none then
    (c.1.Rollback tx, c.2.1, result.Error)
  else
    let k := c.1.Commit tx env.commitErr
    (k.1, c.2.1, k.2.Error)

/-- `func CreateSubnet4(db, server, sharedNetwork, subnet) error` (lines 145-162):
the store, the struct behind the pointer `subnet` and the returned error.  The
call `audit(db, server.Tag)` of line 146 lacks its message argument, which is
taken from `env.helperMessage`. -/
def CreateSubnet4 (env : Env) (db : Store) (server : DHCP4Server)
    (sharedNetwork : DHCP4SharedNetwork) (subnet : DHCP4Subnet) :
    Store × DHCP4Subnet × Option GormError :=
  -- audit(db, server.Tag): the returned handle is dropped
  let db := (audit db server.Tag env.helperMessage env.helperNow env.helperExecErr).1
  -- tx := db.Begin()
  let b := db.Begin
  let tx := b.2
  let auditMsg := "add new subnet: " ++ subnet.Prefix
  let db := (b.1.ExecCreateAuditRevisionDHCP4 tx env.auditNow server.Tag auditMsg true
    env.execErr).1
  -- subnet.SharedNetworkName = &sharedNetwork.Name
  let subnet := { subnet with SharedNetworkName := some sharedNetwork.Name }
  let servers := subnet.Servers
  -- if servers == nil { servers = make([]*DHCP4Server, 0) }
  let servers := match servers with
    | none => makeSlice
    | some s => s
  -- servers = append(servers, server)
  let a := goAppend db.heap servers (some server) env.growCap
  let db := { db with heap := a.1 }
  -- subnet.Servers = servers
  let subnet := { subnet with Servers := some a.2 }
  let c := db.CreateSubnet tx env subnet
  let ret := c.2.2
  if ret.Error ≠ none then
    (c.1.Rollback tx, c.2.1, ret.Error)
  else
    let k := c.1.Commit tx env.commitErr
    (k.1, c.2.1, k.2.Error)

/-! ## Decomposition of the create operations -/

/-- The store transactions are numbered in: every open handle is below the next
one, so that `Begin` returns a handle not in use. -/
def Store.WF (db : Store) : Prop := ∀ h ∈ db.openTxs, h < db.nextTx

instance (db : Store) : Decidable db.WF := by
  unfold Store.WF; exact inferInstance

/-- The call `Create` of `CreateSharedNetwork4` (line 138) with the statements
before it: the store, the struct and the result it returns. -/
def insertOfCreateSharedNetwork4 (env : Env) (db : Store) (server : DHCP4Server)
    (sharedNetwork : DHCP4SharedNetwork) : Store × DHCP4SharedNetwork × DB :=
  let d := (db.Begin.1.ExecCreateAuditRevisionDHCP4 db.Begin.2 env.auditNow server.Tag
    ("add new shared network: " ++ sharedNetwork.Name) true env.execErr).1
  let a := appendServer d.heap sharedNetwork.Servers server env.growCap
  Store.CreateSharedNetwork { d with heap := a.1 } db.Begin.2 env
    { sharedNetwork with Servers := some a.2 }

/-- Lines 147-161 of `CreateSubnet4`, everything after the call of `audit`, on the
store that call left. -/
def afterAuditOfCreateSubnet4 (env : Env) (db : Store) (server : DHCP4Server)
    (sharedNetwork : DHCP4SharedNetwork) (subnet : DHCP4Subnet) :
    Store × DHCP4Subnet × Option GormError :=
  let b := db.Begin
  let tx := b.2
  let auditMsg := "add new subnet: " ++ subnet.Prefix
  let db := (b.1.ExecCreateAuditRevisionDHCP4 tx env.auditNow server.Tag auditMsg true
    env.execErr).1
  let subnet := { subnet with SharedNetworkName := some sharedNetwork.Name }
  let servers := subnet.Servers
  -- if servers == nil { servers = make([]*DHCP4Server, 0) }
  let servers := match servers with
    | none => makeSlice
    | some s => s
  -- servers = append(servers, server)
  let a := goAppend db.heap servers (some server) env.growCap
  let db := { db with heap := a.1 }
  -- subnet.Servers = servers
  let subnet := { subnet with Servers := some a.2 }
  let c := db.CreateSubnet tx env subnet
  let ret := c.2.2
  if ret.Error ≠ none then
    (c.1.Rollback tx, c.2.1, ret.Error)
  else
    let k := c.1.Commit tx env.commitErr
    (k.1, c.2.1, k.2.Error)

/-- The call `Create` of `CreateSubnet4` (line 157) with the statements of lines
147-156 before it, on the store the call of `audit` left. -/
def insertAfterAudit (env : Env) (db : Store) (server : DHCP4Server)
    (sharedNetwork : DHCP4SharedNetwork) (subnet : DHCP4Subnet) : Store × DHCP4Subnet × DB :=
  let d := (db.Begin.1.ExecCreateAuditRevisionDHCP4 db.Begin.2 env.auditNow server.Tag
    ("add new subnet: " ++ subnet.Prefix) true env.execErr).1
  let a := appendServer d.heap subnet.Servers server env.growCap
  Store.CreateSubnet { d with heap := a.1 } db.Begin.2 env
    { subnet with
      SharedNetworkName := some sharedNetwork.Name,
      Servers := some a.2 }

/-- The call `Create` of `CreateSubnet4` (line 157) with all the statements before
it: the store, the struct and the result it returns. -/
def insertOfCreateSubnet4 (env : Env) (db : Store) (server : DHCP4Server)
    (sharedNetwork : DHCP4SharedNetwork) (subnet : DHCP4Subnet) : Store × DHCP4Subnet × DB :=
  insertAfterAudit env
    (audit db server.Tag env.helperMessage env.helperNow env.helperExecErr).1
    server sharedNetwork subnet

/-- The store after `Begin` and some writes `W` in the new transaction. -/
def Store.withTx (db : Store) (W : Tables) : Store :=
  { committed := db.committed,
    pending := db.pending ++ [(db.nextTx, W)],
    nextTx := db.nextTx + 1,
    log := db.log ++ [TxEvent.begin db.nextTx],
    heap := db.heap }

/-- The store with `h` for its heap. -/
def Store.setHeap (db : Store) (h : Heap) : Store :=
  { db with heap := h }

/-- The store after a transaction begun on `db` was closed by `ev`, the committed
tables being `c`. -/
def Store.closedTx (db : Store) (c : Tables) (ev : TxEvent) : Store :=
  { committed := c,
    pending := db.pending,
    nextTx := db.nextTx + 1,
    log := db.log ++ [TxEvent.begin db.nextTx, ev],
    heap := db.heap }

/-- Tables whose only rows are the given audit revisions. -/
def auditTables (rows : List AuditRevision) : Tables :=
  { Tables.empty with dhcp4_audit_revision := rows }

/-- The revisions one audit statement adds to its transaction. -/
def auditRows (ts : Time) (serverTag message : String) (err : Option GormError) :
    List AuditRevision :=
  match err with
  | some _ => []
  | none => [{ ts := ts, serverTag := serverTag, message := message, affectsConfig := true }]

/-- One call of `CreateSubnet4` in a sequence. -/
structure SubnetCall where
  env : Env
  server : DHCP4Server
  sharedNetwork : DHCP4SharedNetwork
  subnet : DHCP4Subnet

/-- Serialized calls of `CreateSubnet4`: each runs to its return on the store the
one before left.  Gives the last store and, call by call, the struct and the
returned error. -/
def createSubnets (db : Store) :
    List SubnetCall → Store × List (DHCP4Subnet × Option GormError)
  | [] => (db, [])
  | c :: rest =>
    let r := CreateSubnet4 c.env db c.server c.sharedNetwork c.subnet
    let rs := createSubnets r.1 rest
    (rs.1, (r.2.1, r.2.2) :: rs.2)

/-- The identifiers of the calls that returned no error, in call order. -/
def assignedIDs (results : List (DHCP4Subnet × Option GormError)) : List Int :=
  (results.filter (fun x => x.2 == none)).map (fun x => x.1.ID)

/-- The greatest identifier of a table of non-negative identifiers, 0 for the
empty table. -/
def greatestID (rows : List DHCP4Subnet) : Int :=
  rows.foldl (fun m r => max m r.ID) 0

/-! ## Sample data -/

/-- The server with tag `all` that `main` looks up. -/
def sampleServer : DHCP4Server :=
  { ID := 1, Tag := "all", Description := "", ModifiedAt := 0 }

/-- The shared network of `main`. -/
def sampleNetwork : DHCP4SharedNetwork :=
  { DHCP4SharedNetwork.zero with Name := "network_test1" }

/-- The subnet of `main`. -/
def sampleSubnet : DHCP4Subnet :=
  { DHCP4Subnet.zero with Prefix := "192.168.101.0/24" }

/-- A subnet row with the given identifier and key. -/
def subnetRow (id : Int) (key : String) : DHCP4Subnet :=
  { DHCP4Subnet.zero with ID := id, Prefix := key }

/-- An environment in which nothing fails. -/
def calmEnv : Env :=
  { auditNow := 5, execErr := none, hookNow := 6, queryErr := none, insertErr := none,
    insertId := 7, commitErr := none, helperMessage := "", helperNow := 4,
    helperExecErr := none, growCap := 0 }

/-- A store holding the given committed tables and no open transaction. -/
def storeOf (t : Tables) : Store :=
  { committed := t, pending := [], nextTx := 0, log := [], heap := [] }

/-- Tables whose only rows are the given subnets. -/
def subnetTables (rows : List DHCP4Subnet) : Tables :=
  { Tables.empty with dhcp4_subnet := rows }

/-- An environment in which only the audit statement fails. -/
def auditFailEnv : Env :=
  { calmEnv with execErr := some (GormError.driver "createAuditRevisionDHCP4 failed") }

/-- A store whose only committed row is a subnet with identifier 4 and the key of
`sampleSubnet`. -/
def sameKeyStore : Store :=
  storeOf (subnetTables [subnetRow 4 "192.168.101.0/24"])

/-- A store whose only committed row is a shared network with the name of
`sampleNetwork`. -/
def sameNameStore : Store :=
  storeOf { Tables.empty with
            dhcp4_shared_network := [{ DHCP4SharedNetwork.zero with
                                       ID := 3, Name := "network_test1" }] }

/-- A store whose only committed row is a subnet with identifier 4 and another
key. -/
def oneSubnetStore : Store :=
  storeOf (subnetTables [subnetRow 4 "10.0.0.0/8"])

/-- A second server. -/
def serverA : DHCP4Server :=
  { ID := 2, Tag := "a", Description := "", ModifiedAt := 0 }

/-- A third server. -/
def serverB : DHCP4Server :=
  { ID := 3, Tag := "b", Description := "", ModifiedAt := 0 }

/-- The store `oneSubnetStore` with one backing array `all = [a, b]` in memory. -/
def oneArrayStore : Store :=
  { oneSubnetStore with heap := [[some serverA, some serverB]] }

/-- The network of `main` with `Servers = all[:1]`: length 1, capacity 2. -/
def firstOfAll : DHCP4SharedNetwork :=
  { sampleNetwork with Servers := some { arr := 0, off := 0, len := 1, cap := 2 } }

/-- The subnet of `main` with `Servers = all[:2]`: length 2, capacity 2. -/
def bothOfAll : DHCP4Subnet :=
  { sampleSubnet with Servers := some { arr := 0, off := 0, len := 2, cap := 2 } }

/-- The store `oneSubnetStore` with two backing arrays in memory, `[a, nil]` and
`[b]`. -/
def twoArrayStore : Store :=
  { oneSubnetStore with heap := [[some serverA, none], [some serverB]] }

/-- The network of `main` with the first element of the first array for its
`Servers`: length 1, capacity 2. -/
def networkOnFirst : DHCP4SharedNetwork :=
  { sampleNetwork with Servers := some { arr := 0, off := 0, len := 1, cap := 2 } }

/-- The subnet of `main` with the second array for its `Servers`: length 1,
capacity 1. -/
def subnetOnSecond : DHCP4Subnet :=
  { sampleSubnet with Servers := some { arr := 1, off := 0, len := 1, cap := 1 } }

/-- Three calls in a calm environment: a new key, the same key again, another
new key. -/
def sampleCalls : List SubnetCall :=
  [{ env := calmEnv, server := sampleServer, sharedNetwork := sampleNetwork,
     subnet := sampleSubnet },
   { env := calmEnv, server := sampleServer, sharedNetwork := sampleNetwork,
     subnet := sampleSubnet },
   { env := calmEnv, server := sampleServer, sharedNetwork := sampleNetwork,
     subnet := subnetRow 0 "172.16.0.0/12" }]

end Kea

/-! # `ip_convert.go` -/

namespace IPConvert

/-- Go's conversion `byte(v)`: the low 8 bits. -/
def byte (v : Nat) : Nat := v % 2 ^ 8

/-- Go's conversion `uint32(v)` and the wrap-around of `uint32` arithmetic. -/
def uint32 (v : Nat) : Nat := v % 2 ^ 32

/-- `binary.BigEndian.PutUint32(b, v)` of Go's `encoding/binary`: panics (`none`) on
a slice shorter than 4 bytes, else stores the four bytes of `v`, the most
significant first. -/
def PutUint32 (b : List Nat) (v : Nat) : Option (List Nat) :=
  if b.length < 4 then none
  else
    let b := b.set 0 (byte (v >>> 24))
    let b := b.set 1 (byte (v >>> 16))
    let b := b.set 2 (byte (v >>> 8))
    let b := b.set 3 (byte v)
    some b

/-- `binary.BigEndian.Uint32(b)` of Go's `encoding/binary`: panics (`none`) on a
slice shorter than 4 bytes, else
`uint32(b[3]) | uint32(b[2])<<8 | uint32(b[1])<<16 | uint32(b[0])<<24`. -/
def Uint32 (b : List Nat) : Option Nat :=
  match b[3]?, b[2]?, b[1]?, b[0]? with
  | some b3, some b2, some b1, some b0 =>
    some (uint32 (uint32 (uint32 (uint32 b3 ||| uint32 (uint32 b2 <<< 8)) |||
      uint32 (uint32 b1 <<< 16)) ||| uint32 (uint32 b0 <<< 24)))
  | _, _, _, _ => none

/-- The body of `main` (lines 11-15) for a value `v` in place of the constant:
the address after `PutUint32` and the value read back, the two things printed. -/
def convert (v : Nat) : Option (List Nat × Nat) :=
  -- ip := make(net.IP, 4)
  let ip := List.replicate 4 0
  -- binary.BigEndian.PutUint32(ip, v)
  match PutUint32 ip v with
  | none => none
  | some ip =>
    -- binary.BigEndian.Uint32(ip)
    match Uint32 ip with
    | none => none
    | some w => some (ip, w)

/-- `func main()` of `ip_convert.go`. -/
def main : Option (List Nat × Nat) := convert 173218814

end IPConvert
namespace Kea

/-! ## Properties of the subnet identifier hook -/

theorem lastRow_eq_foldl (rows : List DHCP4Subnet) :
    lastRow rows = rows.foldl lastStep none := rfl

theorem foldl_lastStep_some (rows : List DHCP4Subnet) (b : DHCP4Subnet) :
    ∃ r, rows.foldl lastStep (some b) = some r ∧ (r = b ∨ r ∈ rows) ∧ b.ID ≤ r.ID ∧
      ∀ x ∈ rows, x.ID ≤ r.ID := by
  induction rows generalizing b with
  | nil => exact ⟨b, rfl, Or.inl rfl, le_refl _, by simp⟩
  | cons a rest ih =>
    by_cases hlt : b.ID < a.ID
    · obtain ⟨r, hr, hmem, hle, hall⟩ := ih a
      refine ⟨r, ?_, ?_, ?_, ?_⟩
      · simp only [List.foldl_cons, lastStep, hlt, if_true]
        exact hr
      · rcases hmem with h | h
        · exact Or.inr (h ▸ List.mem_cons_self _ _)
        · exact Or.inr (List.mem_cons_of_mem _ h)
      · omega
      · intro x hx
        rcases List.mem_cons.mp hx with h | h
        · rw [h]; exact hle
        · exact hall x h
    · obtain ⟨r, hr, hmem, hle, hall⟩ := ih b
      refine ⟨r, ?_, ?_, hle, ?_⟩
      · simp only [List.foldl_cons, lastStep, hlt, if_false]
        exact hr
      · rcases hmem with h | h
        · exact Or.inl h
        · exact Or.inr (List.mem_cons_of_mem _ h)
      · intro x hx
        rcases List.mem_cons.mp hx with h | h
        · rw [h]; omega
        · exact hall x h

/-- On a non-empty table the last row exists, is a row of the table and carries
the greatest identifier. -/
theorem lastRow_greatest (rows : List DHCP4Subnet) (hne : rows ≠ []) :
    ∃ r, lastRow rows = some r ∧ r ∈ rows ∧ ∀ x ∈ rows, x.ID ≤ r.ID := by
  cases rows with
  | nil => exact absurd rfl hne
  | cons a rest =>
    obtain ⟨r, hr, hmem, hle, hall⟩ := foldl_lastStep_some rest a
    refine ⟨r, ?_, ?_, ?_⟩
    · rw [lastRow_eq_foldl]
      simpa [lastStep] using hr
    · rcases hmem with h | h
      · exact h ▸ List.mem_cons_self _ _
      · exact List.mem_cons_of_mem _ h
    · intro x hx
      rcases List.mem_cons.mp hx with h | h
      · rw [h]; exact hle
      · exact hall x h

theorem wrapInt_of_inRange (x : Int) (h : inIntRange x) : wrapInt x = x := by
  unfold inIntRange minInt maxInt at h
  unfold wrapInt
  omega

/-- Whatever the lookup returns, as soon as it reports no error and not exactly
one row the hook leaves the identifier as it was: the branch on
`RecordNotFound()` is never taken, because it is reached only with a nil
`Error`. -/
theorem generateID_no_row (subnet : DHCP4Subnet) (db : DB) (lastSubnet4 : DHCP4Subnet)
    (hrows : db.RowsAffected ≠ 1) :
    subnet.generateID db lastSubnet4 = (subnet, db.Error) := by
  unfold DHCP4Subnet.generateID
  by_cases he : db.Error = none
  · simp [he, hrows, DB.RecordNotFound]
  · simp [he]

/-- C1, evaluated on the code: on an empty subnet table the hook returns an error
(the driver's, or gorm's record-not-found) and assigns no identifier; it never
assigns 1. -/
theorem BeforeCreate_empty_table_fails (subnet : DHCP4Subnet) (now : Time)
    (queryErr : Option GormError) :
    (subnet.BeforeCreate { rows := [], queryErr := queryErr, now := now }).2
        = some (queryErr.getD GormError.ErrRecordNotFound) ∧
      (subnet.BeforeCreate { rows := [], queryErr := queryErr, now := now }).1.ID
        = subnet.ID := by
  cases queryErr <;>
    simp [DHCP4Subnet.BeforeCreate, Scope.Last, lastRow, DHCP4Subnet.generateID]

/-- C2, the claim as stated fails: with the largest Go `int` in the table the hook
returns no error and assigns the smallest `int`, which is below the existing
identifier. -/
theorem BeforeCreate_wraps_at_maxInt :
    (sampleSubnet.BeforeCreate
        { rows := [subnetRow 9223372036854775807 "10.0.0.0/8"],
          queryErr := none, now := 0 }).2 = none ∧
      (sampleSubnet.BeforeCreate
        { rows := [subnetRow 9223372036854775807 "10.0.0.0/8"],
          queryErr := none, now := 0 }).1.ID = -9223372036854775808 ∧
      ¬ ((subnetRow 9223372036854775807 "10.0.0.0/8").ID <
        (sampleSubnet.BeforeCreate
          { rows := [subnetRow 9223372036854775807 "10.0.0.0/8"],
            queryErr := none, now := 0 }).1.ID) := by
  decide

/-- C2, amended: for every non-empty subnet table whose identifiers are Go `int`
values below the largest one, when the lookup succeeds the hook returns no error
and assigns the largest identifier of the table plus one, changing nothing else
but the modification time; the assigned identifier is strictly greater than
every identifier of the table. -/
theorem BeforeCreate_assigns_max_plus_one (subnet : DHCP4Subnet) (scope : Scope)
    (hne : scope.rows ≠ []) (hquery : scope.queryErr = none)
    (hrange : ∀ r ∈ scope.rows, inIntRange r.ID)
    (hbelow : ∀ r ∈ scope.rows, r.ID < maxInt) :
    ∃ m : Int, (∃ r ∈ scope.rows, r.ID = m) ∧ (∀ r ∈ scope.rows, r.ID ≤ m) ∧
      subnet.BeforeCreate scope =
        ({ subnet with ID := m + 1,
                       Params := { subnet.Params with ModifiedAt := scope.now } }, none) ∧
      ∀ r ∈ scope.rows, r.ID < (subnet.BeforeCreate scope).1.ID := by
  obtain ⟨r, hr, hmem, hall⟩ := lastRow_greatest scope.rows hne
  have hw : wrapInt (r.ID + 1) = r.ID + 1 := by
    apply wrapInt_of_inRange
    have h1 := hrange r hmem
    have h2 := hbelow r hmem
    unfold inIntRange minInt maxInt at *
    omega
  have heq : subnet.BeforeCreate scope =
      ({ subnet with ID := r.ID + 1,
                     Params := { subnet.Params with ModifiedAt := scope.now } }, none) := by
    simp [DHCP4Subnet.BeforeCreate, Scope.Last, hquery, hr, DHCP4Subnet.generateID, hw]
  refine ⟨r.ID, ⟨r, hmem, rfl⟩, hall, heq, ?_⟩
  intro x hx
  rw [heq]
  have := hall x hx
  show x.ID < r.ID + 1
  omega

theorem BeforeCreate_assigns_max_plus_one_witness :
    ∃ m : Int,
      (∃ r ∈ [subnetRow 4 "10.0.0.0/8", subnetRow 2 "10.1.0.0/16"], r.ID = m) ∧
      (∀ r ∈ [subnetRow 4 "10.0.0.0/8", subnetRow 2 "10.1.0.0/16"], r.ID ≤ m) ∧
      sampleSubnet.BeforeCreate
          { rows := [subnetRow 4 "10.0.0.0/8", subnetRow 2 "10.1.0.0/16"],
            queryErr := none, now := 9 } =
        ({ sampleSubnet with
             ID := m + 1,
             Params := { sampleSubnet.Params with ModifiedAt := 9 } }, none) ∧
      ∀ r ∈ [subnetRow 4 "10.0.0.0/8", subnetRow 2 "10.1.0.0/16"],
        r.ID < (sampleSubnet.BeforeCreate
          { rows := [subnetRow 4 "10.0.0.0/8", subnetRow 2 "10.1.0.0/16"],
            queryErr := none, now := 9 }).1.ID :=
  BeforeCreate_assigns_max_plus_one sampleSubnet
    { rows := [subnetRow 4 "10.0.0.0/8", subnetRow 2 "10.1.0.0/16"],
      queryErr := none, now := 9 }
    (by decide) rfl (by decide) (by decide)

/-! ## Lookups -/

theorem scanInto_rows_zero_iff {α : Type} (matched : List α) (out : α) :
    (scanInto matched none out).1.RowsAffected = 0 ↔ matched = [] := by
  cases matched with
  | nil => simp [scanInto]
  | cons a rest =>
    have h : (scanInto (a :: rest) none out).1.RowsAffected
        = ((a :: rest).length : Int) := by
      unfold scanInto
      cases hl : (a :: rest).getLast? with
      | none => simp at hl
      | some r => rfl
    rw [h]
    simp
    omega

theorem scanInto_found {α : Type} (matched : List α) (out : α) (hne : matched ≠ []) :
    (scanInto matched none out).2 ∈ matched := by
  unfold scanInto
  cases hl : matched.getLast? with
  | none =>
    rw [List.getLast?_eq_none_iff] at hl
    exact absurd hl hne
  | some r => exact List.mem_of_getLast?_eq_some hl

/-- C9: each lookup returns nil exactly when its query counted zero rows or the
scanned key field is empty, and the scanned record otherwise; a query that did
not fail counts zero rows exactly when no committed row carries the key, and
the record it scans is then a committed row carrying the key; on an empty
server table the tag `all` is not found, and with the single server tagged
`all` that record is returned. -/
theorem lookups_nil_iff_no_row_or_blank_key (db : Store) (tag name : String)
    (queryErr : Option GormError) (t : Tables) (server : DHCP4Server) :
    (GetDHCP4Server db tag queryErr =
        if (queryDHCP4Server db tag queryErr).1.RowsAffected = 0 ∨
            (queryDHCP4Server db tag queryErr).2.Tag = "" then none
        else some (queryDHCP4Server db tag queryErr).2) ∧
      ((queryDHCP4Server db tag none).1.RowsAffected = 0 ↔
        ∀ r ∈ db.committed.dhcp4_server, r.Tag ≠ tag) ∧
      (∀ s, GetDHCP4Server db tag none = some s →
        s ∈ db.committed.dhcp4_server ∧ s.Tag = tag) ∧
      (GetSharedNetwork4 db name queryErr =
        if (querySharedNetwork4 db name queryErr).1.RowsAffected = 0 ∨
            (querySharedNetwork4 db name queryErr).2.Name = "" then none
        else some (querySharedNetwork4 db name queryErr).2) ∧
      ((querySharedNetwork4 db name none).1.RowsAffected = 0 ↔
        ∀ r ∈ db.committed.dhcp4_shared_network, r.Name ≠ name) ∧
      (∀ n, GetSharedNetwork4 db name none = some n →
        n ∈ db.committed.dhcp4_shared_network ∧ n.Name = name) ∧
      GetDHCP4Server (storeOf { t with dhcp4_server := [] }) "all" none = none ∧
      GetDHCP4Server (storeOf { t with dhcp4_server := [{ server with Tag := "all" }] })
        "all" none = some { server with Tag := "all" } := by
  have hs : GetDHCP4Server db tag queryErr =
      if (queryDHCP4Server db tag queryErr).1.RowsAffected = 0 ∨
          (queryDHCP4Server db tag queryErr).2.Tag = "" then none
      else some (queryDHCP4Server db tag queryErr).2 := by
    unfold GetDHCP4Server
    by_cases h1 : (queryDHCP4Server db tag queryErr).1.RowsAffected = 0 <;>
      by_cases h2 : (queryDHCP4Server db tag queryErr).2.Tag = "" <;> simp [h1, h2]
  have hn : GetSharedNetwork4 db name queryErr =
      if (querySharedNetwork4 db name queryErr).1.RowsAffected = 0 ∨
          (querySharedNetwork4 db name queryErr).2.Name = "" then none
      else some (querySharedNetwork4 db name queryErr).2 := by
    unfold GetSharedNetwork4
    by_cases h1 : (querySharedNetwork4 db name queryErr).1.RowsAffected = 0 <;>
      by_cases h2 : (querySharedNetwork4 db name queryErr).2.Name = "" <;> simp [h1, h2]
  refine ⟨hs, ?_, ?_, hn, ?_, ?_, ?_, ?_⟩
  · unfold queryDHCP4Server
    rw [scanInto_rows_zero_iff]
    simp [List.filter_eq_nil_iff]
  · intro s hsome
    unfold GetDHCP4Server at hsome
    simp only [] at hsome
    split_ifs at hsome with hc
    cases hsome
    have hrows : ¬ (queryDHCP4Server db tag none).1.RowsAffected = 0 := by
      intro h
      exact hc (by simp [h])
    unfold queryDHCP4Server at hrows ⊢
    rw [scanInto_rows_zero_iff] at hrows
    have hmem := scanInto_found _ DHCP4Server.zero hrows
    rw [List.mem_filter] at hmem
    exact ⟨hmem.1, by simpa using hmem.2⟩
  · unfold querySharedNetwork4
    rw [scanInto_rows_zero_iff]
    simp [List.filter_eq_nil_iff]
  · intro n hsome
    unfold GetSharedNetwork4 at hsome
    simp only [] at hsome
    split_ifs at hsome with hc
    cases hsome
    have hrows : ¬ (querySharedNetwork4 db name none).1.RowsAffected = 0 := by
      intro h
      exact hc (by simp [h])
    unfold querySharedNetwork4 at hrows ⊢
    rw [scanInto_rows_zero_iff] at hrows
    have hmem := scanInto_found _ DHCP4SharedNetwork.zero hrows
    rw [List.mem_filter] at hmem
    exact ⟨hmem.1, by simpa using hmem.2⟩
  · simp [GetDHCP4Server, queryDHCP4Server, storeOf, scanInto]
  · simp [GetDHCP4Server, queryDHCP4Server, storeOf, scanInto]

/-! ## Transactions -/

theorem CreateSharedNetwork4_unfold (env : Env) (db : Store) (server : DHCP4Server)
    (sharedNetwork : DHCP4SharedNetwork) :
    CreateSharedNetwork4 env db server sharedNetwork =
      if (insertOfCreateSharedNetwork4 env db server sharedNetwork).2.2.Error ≠ none then
        ((insertOfCreateSharedNetwork4 env db server sharedNetwork).1.Rollback db.nextTx,
          (insertOfCreateSharedNetwork4 env db server sharedNetwork).2.1,
          (insertOfCreateSharedNetwork4 env db server sharedNetwork).2.2.Error)
      else
        (((insertOfCreateSharedNetwork4 env db server sharedNetwork).1.Commit db.nextTx
            env.commitErr).1,
          (insertOfCreateSharedNetwork4 env db server sharedNetwork).2.1,
          ((insertOfCreateSharedNetwork4 env db server sharedNetwork).1.Commit db.nextTx
            env.commitErr).2.Error) := rfl

theorem CreateSubnet4_eq_afterAudit (env : Env) (db : Store) (server : DHCP4Server)
    (sharedNetwork : DHCP4SharedNetwork) (subnet : DHCP4Subnet) :
    CreateSubnet4 env db server sharedNetwork subnet =
      afterAuditOfCreateSubnet4 env
        (audit db server.Tag env.helperMessage env.helperNow env.helperExecErr).1
        server sharedNetwork subnet := rfl

theorem afterAudit_unfold (env : Env) (db : Store) (server : DHCP4Server)
    (sharedNetwork : DHCP4SharedNetwork) (subnet : DHCP4Subnet) :
    afterAuditOfCreateSubnet4 env db server sharedNetwork subnet =
      if (insertAfterAudit env db server sharedNetwork subnet).2.2.Error ≠ none then
        ((insertAfterAudit env db server sharedNetwork subnet).1.Rollback db.nextTx,
          (insertAfterAudit env db server sharedNetwork subnet).2.1,
          (insertAfterAudit env db server sharedNetwork subnet).2.2.Error)
      else
        (((insertAfterAudit env db server sharedNetwork subnet).1.Commit db.nextTx
            env.commitErr).1,
          (insertAfterAudit env db server sharedNetwork subnet).2.1,
          ((insertAfterAudit env db server sharedNetwork subnet).1.Commit db.nextTx
            env.commitErr).2.Error) := rfl

theorem lookup_append_fresh (P : List (Nat × Tables)) (n : Nat) (W : Tables)
    (hn : n ∉ P.map Prod.fst) : (P ++ [(n, W)]).lookup n = some W := by
  induction P with
  | nil => simp [List.lookup]
  | cons a rest ih =>
    have h1 : n ≠ a.1 := fun h => hn (by simp [h])
    have h2 : n ∉ rest.map Prod.fst := fun h => hn (by simp at h ⊢; exact Or.inr h)
    obtain ⟨k, v⟩ := a
    have h3 : (n == k) = false := by simpa using h1
    simp only [List.cons_append, List.lookup, h3]
    exact ih h2

theorem map_append_fresh (P : List (Nat × Tables)) (n : Nat) (W : Tables)
    (f : Tables → Tables) (hn : n ∉ P.map Prod.fst) :
    (P ++ [(n, W)]).map (fun p => if p.1 = n then (p.1, f p.2) else p) = P ++ [(n, f W)] := by
  induction P with
  | nil => simp
  | cons a rest ih =>
    have h1 : a.1 ≠ n := fun h => hn (by simp [h])
    have h2 : n ∉ rest.map Prod.fst := fun h => hn (by simp at h ⊢; exact Or.inr h)
    simp only [List.cons_append, List.map_cons, h1, if_false, ih h2]

theorem filter_append_fresh (P : List (Nat × Tables)) (n : Nat) (W : Tables)
    (hn : n ∉ P.map Prod.fst) :
    (P ++ [(n, W)]).filter (fun p => p.1 ≠ n) = P := by
  induction P with
  | nil => simp
  | cons a rest ih =>
    have h1 : a.1 ≠ n := fun h => hn (by simp [h])
    have h2 : n ∉ rest.map Prod.fst := fun h => hn (by simp at h ⊢; exact Or.inr h)
    simp only [List.cons_append, List.filter_cons, h1, ne_eq, not_false_eq_true,
      decide_True, if_true, ih h2]

theorem WF_fresh (db : Store) (hwf : db.WF) : db.nextTx ∉ db.pending.map Prod.fst := by
  intro h
  exact absurd (hwf _ h) (lt_irrefl _)

theorem writes_withTx (db : Store) (W : Tables) (hwf : db.WF) :
    (db.withTx W).writes db.nextTx = W := by
  simp [Store.writes, Store.withTx, lookup_append_fresh _ _ W (WF_fresh db hwf)]

theorem view_withTx (db : Store) (W : Tables) (hwf : db.WF) :
    (db.withTx W).view db.nextTx = db.committed.append W := by
  unfold Store.view
  rw [writes_withTx db W hwf]
  rfl

theorem write_withTx (db : Store) (W : Tables) (f : Tables → Tables) (hwf : db.WF) :
    (db.withTx W).write db.nextTx f = db.withTx (f W) := by
  simp [Store.write, Store.withTx, map_append_fresh _ _ W f (WF_fresh db hwf)]

theorem Rollback_withTx (db : Store) (W : Tables) (hwf : db.WF) :
    (db.withTx W).Rollback db.nextTx
      = db.closedTx db.committed (TxEvent.rollback db.nextTx) := by
  simp only [Store.Rollback, Store.withTx, Store.closedTx]
  rw [filter_append_fresh _ _ W (WF_fresh db hwf)]
  simp

theorem Commit_withTx (db : Store) (W : Tables) (err : Option GormError) (hwf : db.WF) :
    (db.withTx W).Commit db.nextTx err
      = (db.closedTx (match err with
                      | none => db.committed.append W
                      | some _ => db.committed) (TxEvent.commit db.nextTx),
         { Error := err, RowsAffected := 0 }) := by
  cases err with
  | none =>
    simp only [Store.Commit]
    rw [writes_withTx db W hwf]
    simp only [Store.withTx, Store.closedTx]
    rw [filter_append_fresh _ _ W (WF_fresh db hwf)]
    simp
  | some e =>
    simp only [Store.Commit, Store.withTx, Store.closedTx]
    rw [filter_append_fresh _ _ W (WF_fresh db hwf)]
    simp

/-- The store on which `Create` runs: one more open transaction, holding the
revision of the audit statement if that statement succeeded. -/
theorem beforeInsert_shape (db : Store) (hwf : db.WF) (ts : Time) (serverTag message : String)
    (err : Option GormError) :
    (db.Begin.1.ExecCreateAuditRevisionDHCP4 db.Begin.2 ts serverTag message true err).1
      = db.withTx (auditTables (auditRows ts serverTag message err)) := by
  cases err with
  | some e => rfl
  | none =>
    have h := write_withTx db Tables.empty (fun t =>
        { t with dhcp4_audit_revision :=
            t.dhcp4_audit_revision ++
              [{ ts := ts, serverTag := serverTag, message := message,
                 affectsConfig := true }] }) hwf
    simp only [Store.ExecCreateAuditRevisionDHCP4]
    exact h

theorem Exec_frame (db : Store) (tx : Nat) (ts : Time) (serverTag message : String)
    (flag : Bool) (err : Option GormError) :
    (db.ExecCreateAuditRevisionDHCP4 tx ts serverTag message flag err).1.committed
        = db.committed ∧
      (db.ExecCreateAuditRevisionDHCP4 tx ts serverTag message flag err).1.log = db.log ∧
      (db.ExecCreateAuditRevisionDHCP4 tx ts serverTag message flag err).1.nextTx
        = db.nextTx := by
  cases err <;> exact ⟨rfl, rfl, rfl⟩

/-- The two outcomes of `Create` on a shared network: an error and an untouched
store, or no error and the row with its join rows written in the transaction. -/
theorem CreateSharedNetwork_store (d : Store) (tx : Nat) (env : Env)
    (N : DHCP4SharedNetwork) :
    ((d.CreateSharedNetwork tx env N).2.2.Error ≠ none ∧
        (d.CreateSharedNetwork tx env N).1 = d) ∨
      ((d.CreateSharedNetwork tx env N).2.2.Error = none ∧
        (d.CreateSharedNetwork tx env N).1 = d.write tx (fun t =>
          { t with
            dhcp4_shared_network := t.dhcp4_shared_network ++
              [{ (d.CreateSharedNetwork tx env N).2.1 with Servers := none }],
            dhcp4_shared_network_server := t.dhcp4_shared_network_server ++
              newLinks (d.view tx).dhcp4_shared_network_server
                (d.CreateSharedNetwork tx env N).2.1.ID (d.heap.elems N.Servers) })) := by
  unfold Store.CreateSharedNetwork DHCP4SharedNetwork.BeforeCreate
  simp only []
  split
  · exact Or.inl ⟨by simp, rfl⟩
  · split_ifs <;> first
      | exact Or.inl ⟨by simp, rfl⟩
      | exact Or.inr ⟨rfl, rfl⟩

/-- The two outcomes of `Create` on a subnet: an error and an untouched store, or
no error, the hook having returned none, and the row with its join rows written
in the transaction under the identifier the hook set (the store's when the hook
left it blank). -/
theorem CreateSubnet_store (d : Store) (tx : Nat) (env : Env) (U : DHCP4Subnet) :
    ((d.CreateSubnet tx env U).2.2.Error ≠ none ∧ (d.CreateSubnet tx env U).1 = d) ∨
      ((d.CreateSubnet tx env U).2.2.Error = none ∧
        (U.BeforeCreate { rows := (d.view tx).dhcp4_subnet, queryErr := env.queryErr,
                          now := env.hookNow }).2 = none ∧
        (d.CreateSubnet tx env U).2.1.ID =
          (if (U.BeforeCreate { rows := (d.view tx).dhcp4_subnet, queryErr := env.queryErr,
                                now := env.hookNow }).1.ID = 0 then env.insertId
           else (U.BeforeCreate { rows := (d.view tx).dhcp4_subnet, queryErr := env.queryErr,
                                  now := env.hookNow }).1.ID) ∧
        (d.CreateSubnet tx env U).1 = d.write tx (fun t =>
          { t with
            dhcp4_subnet := t.dhcp4_subnet ++
              [{ (d.CreateSubnet tx env U).2.1 with Servers := none }],
            dhcp4_subnet_server := t.dhcp4_subnet_server ++
              newLinks (d.view tx).dhcp4_subnet_server
                (d.CreateSubnet tx env U).2.1.ID
                (d.heap.elems (d.CreateSubnet tx env U).2.1.Servers) })) := by
  unfold Store.CreateSubnet
  simp only []
  split
  · exact Or.inl ⟨by simp, rfl⟩
  · rename_i hhook
    split
    · exact Or.inl ⟨by simp, rfl⟩
    · split_ifs with h0 hdup hdup
      · exact Or.inl ⟨by simp, rfl⟩
      · exact Or.inr ⟨rfl, hhook, by simp [h0], rfl⟩
      · exact Or.inl ⟨by simp, rfl⟩
      · exact Or.inr ⟨rfl, hhook, by simp [h0], rfl⟩

theorem setHeap_WF (db : Store) (h : Heap) (hwf : db.WF) : (db.setHeap h).WF := hwf

theorem insertOfCreateSharedNetwork4_shape (env : Env) (db : Store) (S : DHCP4Server)
    (N : DHCP4SharedNetwork) (hwf : db.WF) :
    insertOfCreateSharedNetwork4 env db S N =
      ((db.setHeap (appendServer db.heap N.Servers S env.growCap).1).withTx
          (auditTables (auditRows env.auditNow S.Tag
            ("add new shared network: " ++ N.Name) env.execErr))).CreateSharedNetwork
        db.nextTx env
        { N with Servers := some (appendServer db.heap N.Servers S env.growCap).2 } := by
  unfold insertOfCreateSharedNetwork4
  rw [beforeInsert_shape db hwf]
  rfl

/-- What `CreateSharedNetwork4` leaves on a well-numbered store: the open
transactions are those open before; either an error is returned and the
committed tables are untouched, or none is returned, the insert and the commit
both succeeded, and the committed tables gained the network row and the
revisions of the audit statement. -/
theorem CreateSharedNetwork4_outcome (env : Env) (db : Store) (S : DHCP4Server)
    (N : DHCP4SharedNetwork) (hwf : db.WF) :
    (CreateSharedNetwork4 env db S N).1.pending = db.pending ∧
      (CreateSharedNetwork4 env db S N).1.nextTx = db.nextTx + 1 ∧
      (((CreateSharedNetwork4 env db S N).2.2 ≠ none ∧
          (CreateSharedNetwork4 env db S N).1.committed = db.committed) ∨
        ((CreateSharedNetwork4 env db S N).2.2 = none ∧
          (insertOfCreateSharedNetwork4 env db S N).2.2.Error = none ∧
          env.commitErr = none ∧
          (CreateSharedNetwork4 env db S N).1.committed.dhcp4_shared_network =
            db.committed.dhcp4_shared_network ++
              [{ (CreateSharedNetwork4 env db S N).2.1 with Servers := none }] ∧
          (CreateSharedNetwork4 env db S N).1.committed.dhcp4_audit_revision =
            db.committed.dhcp4_audit_revision ++
              auditRows env.auditNow S.Tag ("add new shared network: " ++ N.Name)
                env.execErr ∧
          (CreateSharedNetwork4 env db S N).1.committed.dhcp4_subnet =
            db.committed.dhcp4_subnet)) := by
  have hwf2 := setHeap_WF db (appendServer db.heap N.Servers S env.growCap).1 hwf
  rw [CreateSharedNetwork4_unfold, insertOfCreateSharedNetwork4_shape env db S N hwf]
  rcases CreateSharedNetwork_store
      ((db.setHeap (appendServer db.heap N.Servers S env.growCap).1).withTx
        (auditTables (auditRows env.auditNow S.Tag
          ("add new shared network: " ++ N.Name) env.execErr))) db.nextTx env
      { N with Servers := some (appendServer db.heap N.Servers S env.growCap).2 }
    with ⟨herr, hst⟩ | ⟨hok, hst⟩
  · rw [if_pos herr, hst]
    rw [show db.nextTx = (db.setHeap (appendServer db.heap N.Servers S env.growCap).1).nextTx
      from rfl, Rollback_withTx _ _ hwf2]
    exact ⟨rfl, rfl, Or.inl ⟨herr, rfl⟩⟩
  · rw [if_neg (by rw [hok]; simp), hst]
    rw [show db.nextTx = (db.setHeap (appendServer db.heap N.Servers S env.growCap).1).nextTx
      from rfl, write_withTx _ _ _ hwf2, Commit_withTx _ _ _ hwf2]
    refine ⟨rfl, rfl, ?_⟩
    cases hc : env.commitErr with
    | some e => exact Or.inl ⟨by simp, rfl⟩
    | none =>
      refine Or.inr ⟨rfl, hok, rfl, ?_, ?_, ?_⟩ <;>
        simp [Store.closedTx, Store.setHeap, Tables.append, Tables.empty, auditTables]

/-- The hook returns no error only after it found a last row, and then the
identifier is that row's plus one in Go arithmetic. -/
theorem BeforeCreate_ok (U : DHCP4Subnet) (scope : Scope)
    (h : (U.BeforeCreate scope).2 = none) :
    ∃ last, lastRow scope.rows = some last ∧
      (U.BeforeCreate scope).1.ID = wrapInt (last.ID + 1) := by
  unfold DHCP4Subnet.BeforeCreate Scope.Last at *
  cases hq : scope.queryErr with
  | some e => simp [hq, DHCP4Subnet.generateID] at h
  | none =>
    cases hl : lastRow scope.rows with
    | none => simp [hq, hl, DHCP4Subnet.generateID] at h
    | some r =>
      refine ⟨r, rfl, ?_⟩
      simp [hq, hl, DHCP4Subnet.generateID]

theorem insertAfterAudit_shape (env : Env) (db : Store) (S : DHCP4Server)
    (N : DHCP4SharedNetwork) (U : DHCP4Subnet) (hwf : db.WF) :
    insertAfterAudit env db S N U =
      ((db.setHeap (appendServer db.heap U.Servers S env.growCap).1).withTx
          (auditTables (auditRows env.auditNow S.Tag
            ("add new subnet: " ++ U.Prefix) env.execErr))).CreateSubnet db.nextTx env
        { U with
          SharedNetworkName := some N.Name,
          Servers := some (appendServer db.heap U.Servers S env.growCap).2 } := by
  unfold insertAfterAudit
  rw [beforeInsert_shape db hwf]
  rfl

/-- What lines 147-161 of `CreateSubnet4` leave on a well-numbered store: the open
transactions are those open before; either an error is returned and the
committed tables are untouched, or none is returned, the insert and the commit
both succeeded, the identifier is the one following the last committed row
(the store's if that is blank), and the committed tables gained the subnet row
and the revisions of the audit statement. -/
theorem afterAudit_outcome (env : Env) (db : Store) (S : DHCP4Server)
    (N : DHCP4SharedNetwork) (U : DHCP4Subnet) (hwf : db.WF) :
    (afterAuditOfCreateSubnet4 env db S N U).1.pending = db.pending ∧
      (afterAuditOfCreateSubnet4 env db S N U).1.nextTx = db.nextTx + 1 ∧
      (((afterAuditOfCreateSubnet4 env db S N U).2.2 ≠ none ∧
          (afterAuditOfCreateSubnet4 env db S N U).1.committed = db.committed) ∨
        ((afterAuditOfCreateSubnet4 env db S N U).2.2 = none ∧
          (insertAfterAudit env db S N U).2.2.Error = none ∧
          env.commitErr = none ∧
          (∃ last, lastRow db.committed.dhcp4_subnet = some last ∧
            (afterAuditOfCreateSubnet4 env db S N U).2.1.ID =
              if wrapInt (last.ID + 1) = 0 then env.insertId
              else wrapInt (last.ID + 1)) ∧
          (afterAuditOfCreateSubnet4 env db S N U).1.committed.dhcp4_subnet =
            db.committed.dhcp4_subnet ++
              [{ (afterAuditOfCreateSubnet4 env db S N U).2.1 with Servers := none }] ∧
          (afterAuditOfCreateSubnet4 env db S N U).1.committed.dhcp4_audit_revision =
            db.committed.dhcp4_audit_revision ++
              auditRows env.auditNow S.Tag ("add new subnet: " ++ U.Prefix) env.execErr ∧
          (afterAuditOfCreateSubnet4 env db S N U).1.committed.dhcp4_shared_network =
            db.committed.dhcp4_shared_network)) := by
  have hwf2 := setHeap_WF db (appendServer db.heap U.Servers S env.growCap).1 hwf
  have hnx : db.nextTx = (db.setHeap (appendServer db.heap U.Servers S env.growCap).1).nextTx :=
    rfl
  rw [afterAudit_unfold, insertAfterAudit_shape env db S N U hwf]
  rcases CreateSubnet_store
      ((db.setHeap (appendServer db.heap U.Servers S env.growCap).1).withTx
        (auditTables (auditRows env.auditNow S.Tag
          ("add new subnet: " ++ U.Prefix) env.execErr))) db.nextTx env
      { U with
        SharedNetworkName := some N.Name,
        Servers := some (appendServer db.heap U.Servers S env.growCap).2 }
    with ⟨herr, hst⟩ | ⟨hok, hhook, hid, hst⟩
  · rw [if_pos herr, hst]
    rw [hnx, Rollback_withTx _ _ hwf2]
    exact ⟨rfl, rfl, Or.inl ⟨herr, rfl⟩⟩
  · rw [if_neg (by rw [hok]; simp), hst]
    rw [hnx, write_withTx _ _ _ hwf2, Commit_withTx _ _ _ hwf2]
    refine ⟨rfl, rfl, ?_⟩
    cases hc : env.commitErr with
    | some e => exact Or.inl ⟨by simp, rfl⟩
    | none =>
      obtain ⟨last, hlast, hlid⟩ := BeforeCreate_ok _ _ hhook
      have hrows : (((db.setHeap (appendServer db.heap U.Servers S env.growCap).1).withTx
          (auditTables (auditRows env.auditNow S.Tag
            ("add new subnet: " ++ U.Prefix) env.execErr))).view db.nextTx).dhcp4_subnet
          = db.committed.dhcp4_subnet := by
        rw [hnx, view_withTx _ _ hwf2]
        simp [Store.setHeap, Tables.append, Tables.empty, auditTables]
      rw [hrows] at hlast hlid hid
      refine Or.inr ⟨rfl, hok, rfl, ⟨last, hlast, ?_⟩, ?_, ?_, ?_⟩
      · rw [← hlid]
        exact hid
      · simp [Store.closedTx, Store.setHeap, Tables.append, Tables.empty, auditTables]
      · simp [Store.closedTx, Store.setHeap, Tables.append, Tables.empty, auditTables]
      · simp [Store.closedTx, Store.setHeap, Tables.append, Tables.empty, auditTables]

theorem audit_shape (db : Store) (hwf : db.WF) (serverTag auditMessage : String) (now : Time)
    (execErr : Option GormError) :
    (audit db serverTag auditMessage now execErr).1
      = db.withTx (auditTables (auditRows now serverTag auditMessage execErr)) := by
  unfold audit
  exact beforeInsert_shape db hwf now serverTag auditMessage execErr

theorem withTx_WF (db : Store) (W : Tables) (hwf : db.WF) : (db.withTx W).WF := by
  intro h hh
  simp only [Store.openTxs, Store.withTx, List.map_append, List.mem_append, List.map_cons,
    List.map_nil, List.mem_singleton] at hh
  show h < db.nextTx + 1
  rcases hh with hh | hh
  · have := hwf h hh
    omega
  · omega

/-- What `CreateSubnet4` leaves on a well-numbered store: the transaction of
`audit` stays open with its revision; for the rest as `afterAudit_outcome`. -/
theorem CreateSubnet4_outcome (env : Env) (db : Store) (S : DHCP4Server)
    (N : DHCP4SharedNetwork) (U : DHCP4Subnet) (hwf : db.WF) :
    (CreateSubnet4 env db S N U).1.pending = db.pending ++
        [(db.nextTx, auditTables (auditRows env.helperNow S.Tag env.helperMessage
          env.helperExecErr))] ∧
      (CreateSubnet4 env db S N U).1.nextTx = db.nextTx + 2 ∧
      (((CreateSubnet4 env db S N U).2.2 ≠ none ∧
          (CreateSubnet4 env db S N U).1.committed = db.committed) ∨
        ((CreateSubnet4 env db S N U).2.2 = none ∧
          (insertOfCreateSubnet4 env db S N U).2.2.Error = none ∧
          env.commitErr = none ∧
          (∃ last, lastRow db.committed.dhcp4_subnet = some last ∧
            (CreateSubnet4 env db S N U).2.1.ID =
              if wrapInt (last.ID + 1) = 0 then env.insertId
              else wrapInt (last.ID + 1)) ∧
          (CreateSubnet4 env db S N U).1.committed.dhcp4_subnet =
            db.committed.dhcp4_subnet ++
              [{ (CreateSubnet4 env db S N U).2.1 with Servers := none }] ∧
          (CreateSubnet4 env db S N U).1.committed.dhcp4_audit_revision =
            db.committed.dhcp4_audit_revision ++
              auditRows env.auditNow S.Tag ("add new subnet: " ++ U.Prefix) env.execErr ∧
          (CreateSubnet4 env db S N U).1.committed.dhcp4_shared_network =
            db.committed.dhcp4_shared_network)) := by
  have h := afterAudit_outcome env
    (db.withTx (auditTables (auditRows env.helperNow S.Tag env.helperMessage
      env.helperExecErr))) S N U (withTx_WF db _ hwf)
  rw [CreateSubnet4_eq_afterAudit, audit_shape db hwf]
  unfold insertOfCreateSubnet4
  rw [audit_shape db hwf]
  exact h

/-! ## What the operations never touch -/

theorem write_frame (d : Store) (tx : Nat) (f : Tables → Tables) :
    (d.write tx f).openTxs = d.openTxs ∧ (d.write tx f).committed = d.committed ∧
      (d.write tx f).log = d.log ∧ (d.write tx f).nextTx = d.nextTx := by
  refine ⟨?_, rfl, rfl, rfl⟩
  simp only [Store.openTxs, Store.write, List.map_map]
  apply List.map_congr_left
  intro p _
  by_cases h : p.1 = tx <;> simp [h]

theorem Exec_openTxs (db : Store) (tx : Nat) (ts : Time) (serverTag message : String)
    (flag : Bool) (err : Option GormError) :
    (db.ExecCreateAuditRevisionDHCP4 tx ts serverTag message flag err).1.openTxs
      = db.openTxs := by
  cases err with
  | some e => rfl
  | none => exact (write_frame db tx _).1

theorem CreateSharedNetwork_frame (d : Store) (tx : Nat) (env : Env)
    (N : DHCP4SharedNetwork) :
    (d.CreateSharedNetwork tx env N).1.openTxs = d.openTxs ∧
      (d.CreateSharedNetwork tx env N).1.committed = d.committed ∧
      (d.CreateSharedNetwork tx env N).1.log = d.log ∧
      (d.CreateSharedNetwork tx env N).1.nextTx = d.nextTx := by
  rcases CreateSharedNetwork_store d tx env N with ⟨_, hst⟩ | ⟨_, hst⟩
  · rw [hst]; exact ⟨rfl, rfl, rfl, rfl⟩
  · rw [hst]; exact write_frame d tx _

theorem CreateSubnet_frame (d : Store) (tx : Nat) (env : Env) (U : DHCP4Subnet) :
    (d.CreateSubnet tx env U).1.openTxs = d.openTxs ∧
      (d.CreateSubnet tx env U).1.committed = d.committed ∧
      (d.CreateSubnet tx env U).1.log = d.log ∧
      (d.CreateSubnet tx env U).1.nextTx = d.nextTx := by
  rcases CreateSubnet_store d tx env U with ⟨_, hst⟩ | ⟨_, _, _, hst⟩
  · rw [hst]; exact ⟨rfl, rfl, rfl, rfl⟩
  · rw [hst]; exact write_frame d tx _

theorem insertOfCreateSharedNetwork4_frame (env : Env) (db : Store) (S : DHCP4Server)
    (N : DHCP4SharedNetwork) :
    (insertOfCreateSharedNetwork4 env db S N).1.openTxs = db.openTxs ++ [db.nextTx] ∧
      (insertOfCreateSharedNetwork4 env db S N).1.committed = db.committed ∧
      (insertOfCreateSharedNetwork4 env db S N).1.log
        = db.log ++ [TxEvent.begin db.nextTx] ∧
      (insertOfCreateSharedNetwork4 env db S N).1.nextTx = db.nextTx + 1 := by
  unfold insertOfCreateSharedNetwork4
  simp only []
  obtain ⟨h1, h2, h3, h4⟩ := CreateSharedNetwork_frame
    { (db.Begin.1.ExecCreateAuditRevisionDHCP4 db.Begin.2 env.auditNow S.Tag
        ("add new shared network: " ++ N.Name) true env.execErr).1 with
      heap := (appendServer
        (db.Begin.1.ExecCreateAuditRevisionDHCP4 db.Begin.2 env.auditNow S.Tag
          ("add new shared network: " ++ N.Name) true env.execErr).1.heap
        N.Servers S env.growCap).1 } db.Begin.2 env
    { N with Servers := some (appendServer
        (db.Begin.1.ExecCreateAuditRevisionDHCP4 db.Begin.2 env.auditNow S.Tag
          ("add new shared network: " ++ N.Name) true env.execErr).1.heap
        N.Servers S env.growCap).2 }
  obtain ⟨e1, e2, e3⟩ := Exec_frame db.Begin.1 db.Begin.2 env.auditNow S.Tag
    ("add new shared network: " ++ N.Name) true env.execErr
  have e0 := Exec_openTxs db.Begin.1 db.Begin.2 env.auditNow S.Tag
    ("add new shared network: " ++ N.Name) true env.execErr
  rw [h1, h2, h3, h4]
  show (db.Begin.1.ExecCreateAuditRevisionDHCP4 db.Begin.2 env.auditNow S.Tag
        ("add new shared network: " ++ N.Name) true env.execErr).1.openTxs = _ ∧
    (db.Begin.1.ExecCreateAuditRevisionDHCP4 db.Begin.2 env.auditNow S.Tag
        ("add new shared network: " ++ N.Name) true env.execErr).1.committed = _ ∧
    (db.Begin.1.ExecCreateAuditRevisionDHCP4 db.Begin.2 env.auditNow S.Tag
        ("add new shared network: " ++ N.Name) true env.execErr).1.log = _ ∧
    (db.Begin.1.ExecCreateAuditRevisionDHCP4 db.Begin.2 env.auditNow S.Tag
        ("add new shared network: " ++ N.Name) true env.execErr).1.nextTx = _
  rw [e0, e1, e2, e3]
  refine ⟨?_, rfl, rfl, rfl⟩
  simp [Store.openTxs, Store.Begin]

theorem insertAfterAudit_frame (env : Env) (db : Store) (S : DHCP4Server)
    (N : DHCP4SharedNetwork) (U : DHCP4Subnet) :
    (insertAfterAudit env db S N U).1.openTxs = db.openTxs ++ [db.nextTx] ∧
      (insertAfterAudit env db S N U).1.committed = db.committed ∧
      (insertAfterAudit env db S N U).1.log = db.log ++ [TxEvent.begin db.nextTx] ∧
      (insertAfterAudit env db S N U).1.nextTx = db.nextTx + 1 := by
  unfold insertAfterAudit
  simp only []
  obtain ⟨h1, h2, h3, h4⟩ := CreateSubnet_frame
    { (db.Begin.1.ExecCreateAuditRevisionDHCP4 db.Begin.2 env.auditNow S.Tag
        ("add new subnet: " ++ U.Prefix) true env.execErr).1 with
      heap := (appendServer
        (db.Begin.1.ExecCreateAuditRevisionDHCP4 db.Begin.2 env.auditNow S.Tag
          ("add new subnet: " ++ U.Prefix) true env.execErr).1.heap
        U.Servers S env.growCap).1 } db.Begin.2 env
    { U with
      SharedNetworkName := some N.Name,
      Servers := some (appendServer
        (db.Begin.1.ExecCreateAuditRevisionDHCP4 db.Begin.2 env.auditNow S.Tag
          ("add new subnet: " ++ U.Prefix) true env.execErr).1.heap
        U.Servers S env.growCap).2 }
  obtain ⟨e1, e2, e3⟩ := Exec_frame db.Begin.1 db.Begin.2 env.auditNow S.Tag
    ("add new subnet: " ++ U.Prefix) true env.execErr
  have e0 := Exec_openTxs db.Begin.1 db.Begin.2 env.auditNow S.Tag
    ("add new subnet: " ++ U.Prefix) true env.execErr
  rw [h1, h2, h3, h4]
  show (db.Begin.1.ExecCreateAuditRevisionDHCP4 db.Begin.2 env.auditNow S.Tag
        ("add new subnet: " ++ U.Prefix) true env.execErr).1.openTxs = _ ∧
    (db.Begin.1.ExecCreateAuditRevisionDHCP4 db.Begin.2 env.auditNow S.Tag
        ("add new subnet: " ++ U.Prefix) true env.execErr).1.committed = _ ∧
    (db.Begin.1.ExecCreateAuditRevisionDHCP4 db.Begin.2 env.auditNow S.Tag
        ("add new subnet: " ++ U.Prefix) true env.execErr).1.log = _ ∧
    (db.Begin.1.ExecCreateAuditRevisionDHCP4 db.Begin.2 env.auditNow S.Tag
        ("add new subnet: " ++ U.Prefix) true env.execErr).1.nextTx = _
  rw [e0, e1, e2, e3]
  refine ⟨?_, rfl, rfl, rfl⟩
  simp [Store.openTxs, Store.Begin]

theorem audit_frame (db : Store) (serverTag auditMessage : String) (now : Time)
    (execErr : Option GormError) :
    (audit db serverTag auditMessage now execErr).1.openTxs = db.openTxs ++ [db.nextTx] ∧
      (audit db serverTag auditMessage now execErr).1.committed = db.committed ∧
      (audit db serverTag auditMessage now execErr).1.log
        = db.log ++ [TxEvent.begin db.nextTx] ∧
      (audit db serverTag auditMessage now execErr).1.nextTx = db.nextTx + 1 := by
  unfold audit
  obtain ⟨e1, e2, e3⟩ := Exec_frame db.Begin.1 db.Begin.2 now serverTag auditMessage true
    execErr
  have e0 := Exec_openTxs db.Begin.1 db.Begin.2 now serverTag auditMessage true execErr
  simp only []
  rw [e0, e1, e2, e3]
  refine ⟨?_, rfl, rfl, rfl⟩
  simp [Store.openTxs, Store.Begin]

theorem insertOfCreateSubnet4_frame (env : Env) (db : Store) (S : DHCP4Server)
    (N : DHCP4SharedNetwork) (U : DHCP4Subnet) :
    (insertOfCreateSubnet4 env db S N U).1.openTxs
        = db.openTxs ++ [db.nextTx] ++ [db.nextTx + 1] ∧
      (insertOfCreateSubnet4 env db S N U).1.committed = db.committed ∧
      (insertOfCreateSubnet4 env db S N U).1.log
        = db.log ++ [TxEvent.begin db.nextTx] ++ [TxEvent.begin (db.nextTx + 1)] ∧
      (insertOfCreateSubnet4 env db S N U).1.nextTx = db.nextTx + 1 + 1 := by
  unfold insertOfCreateSubnet4
  obtain ⟨a1, a2, a3, a4⟩ := audit_frame db S.Tag env.helperMessage env.helperNow
    env.helperExecErr
  obtain ⟨h1, h2, h3, h4⟩ := insertAfterAudit_frame env
    (audit db S.Tag env.helperMessage env.helperNow env.helperExecErr).1 S N U
  rw [h1, h2, h3, h4, a1, a2, a3, a4]
  exact ⟨rfl, rfl, rfl, rfl⟩

theorem CreateSubnet4_unfold (env : Env) (db : Store) (S : DHCP4Server)
    (N : DHCP4SharedNetwork) (U : DHCP4Subnet) :
    CreateSubnet4 env db S N U =
      if (insertOfCreateSubnet4 env db S N U).2.2.Error ≠ none then
        ((insertOfCreateSubnet4 env db S N U).1.Rollback (db.nextTx + 1),
          (insertOfCreateSubnet4 env db S N U).2.1,
          (insertOfCreateSubnet4 env db S N U).2.2.Error)
      else
        (((insertOfCreateSubnet4 env db S N U).1.Commit (db.nextTx + 1) env.commitErr).1,
          (insertOfCreateSubnet4 env db S N U).2.1,
          ((insertOfCreateSubnet4 env db S N U).1.Commit (db.nextTx + 1)
            env.commitErr).2.Error) := by
  have hn : (audit db S.Tag env.helperMessage env.helperNow env.helperExecErr).1.nextTx
      = db.nextTx + 1 := (audit_frame db _ _ _ _).2.2.2
  rw [CreateSubnet4_eq_afterAudit, afterAudit_unfold, hn]
  rfl

theorem Commit_frame (d : Store) (tx : Nat) (err : Option GormError) :
    (d.Commit tx err).1.log = d.log ++ [TxEvent.commit tx] ∧
      (d.Commit tx err).2.Error = err ∧
      (err ≠ none → (d.Commit tx err).1.committed = d.committed) ∧
      (∀ h ∈ d.openTxs, h ≠ tx → h ∈ (d.Commit tx err).1.openTxs) := by
  cases err with
  | none =>
    refine ⟨rfl, rfl, fun h => absurd rfl h, ?_⟩
    intro h hh hne
    simp only [Store.openTxs, Store.Commit, List.mem_map, List.mem_filter] at hh ⊢
    obtain ⟨p, hp, rfl⟩ := hh
    exact ⟨p, ⟨hp, by simpa using hne⟩, rfl⟩
  | some e =>
    refine ⟨rfl, rfl, fun _ => rfl, ?_⟩
    intro h hh hne
    simp only [Store.openTxs, Store.Commit, List.mem_map, List.mem_filter] at hh ⊢
    obtain ⟨p, hp, rfl⟩ := hh
    exact ⟨p, ⟨hp, by simpa using hne⟩, rfl⟩

theorem Rollback_frame (d : Store) (tx : Nat) :
    (d.Rollback tx).log = d.log ++ [TxEvent.rollback tx] ∧
      (d.Rollback tx).committed = d.committed ∧
      (∀ h ∈ d.openTxs, h ≠ tx → h ∈ (d.Rollback tx).openTxs) := by
  refine ⟨rfl, rfl, ?_⟩
  intro h hh hne
  simp only [Store.openTxs, Store.Rollback, List.mem_map, List.mem_filter] at hh ⊢
  obtain ⟨p, hp, rfl⟩ := hh
  exact ⟨p, ⟨hp, by simpa using hne⟩, rfl⟩

/-! ## The create operations: errors, roll back and audit -/

theorem CreateSharedNetwork4_error (env : Env) (db : Store) (S : DHCP4Server)
    (N : DHCP4SharedNetwork) :
    (CreateSharedNetwork4 env db S N).2.2 =
      match (insertOfCreateSharedNetwork4 env db S N).2.2.Error with
      | some x => some x
      | none => env.commitErr := by
  rw [CreateSharedNetwork4_unfold]
  cases h : (insertOfCreateSharedNetwork4 env db S N).2.2.Error with
  | some x => simp
  | none => simp [(Commit_frame _ _ _).2.1]

theorem CreateSubnet4_error (env : Env) (db : Store) (S : DHCP4Server)
    (N : DHCP4SharedNetwork) (U : DHCP4Subnet) :
    (CreateSubnet4 env db S N U).2.2 =
      match (insertOfCreateSubnet4 env db S N U).2.2.Error with
      | some x => some x
      | none => env.commitErr := by
  rw [CreateSubnet4_unfold]
  cases h : (insertOfCreateSubnet4 env db S N U).2.2.Error with
  | some x => simp
  | none => simp [(Commit_frame _ _ _).2.1]

/-- C5: in `CreateSharedNetwork4` and in `CreateSubnet4`, for every store and every
input, when the entity insert fails the operation returns that error, the
transaction of the insert is rolled back and never committed (the calls on
transactions during the operation are its begin, for the subnet also the begin
of the audit helper, and that one rollback), and the committed tables are the
ones before the call. -/
theorem failed_insert_rolls_back (env : Env) (db : Store) (S : DHCP4Server)
    (N : DHCP4SharedNetwork) (U : DHCP4Subnet) :
    (∀ e, (insertOfCreateSharedNetwork4 env db S N).2.2.Error = some e →
        (CreateSharedNetwork4 env db S N).2.2 = some e ∧
        (CreateSharedNetwork4 env db S N).1.committed = db.committed ∧
        (CreateSharedNetwork4 env db S N).1.log =
          db.log ++ [TxEvent.begin db.nextTx, TxEvent.rollback db.nextTx]) ∧
      (∀ e, (insertOfCreateSubnet4 env db S N U).2.2.Error = some e →
        (CreateSubnet4 env db S N U).2.2 = some e ∧
        (CreateSubnet4 env db S N U).1.committed = db.committed ∧
        (CreateSubnet4 env db S N U).1.log =
          db.log ++ [TxEvent.begin db.nextTx, TxEvent.begin (db.nextTx + 1),
            TxEvent.rollback (db.nextTx + 1)]) := by
  constructor
  · intro e he
    obtain ⟨_, hc, hl, _⟩ := insertOfCreateSharedNetwork4_frame env db S N
    rw [CreateSharedNetwork4_unfold, if_pos (by rw [he]; simp)]
    refine ⟨he, ?_, ?_⟩
    · show ((insertOfCreateSharedNetwork4 env db S N).1.Rollback db.nextTx).committed = _
      rw [(Rollback_frame _ _).2.1, hc]
    · show ((insertOfCreateSharedNetwork4 env db S N).1.Rollback db.nextTx).log = _
      rw [(Rollback_frame _ _).1, hl]
      simp
  · intro e he
    obtain ⟨_, hc, hl, _⟩ := insertOfCreateSubnet4_frame env db S N U
    rw [CreateSubnet4_unfold, if_pos (by rw [he]; simp)]
    refine ⟨he, ?_, ?_⟩
    · show ((insertOfCreateSubnet4 env db S N U).1.Rollback (db.nextTx + 1)).committed = _
      rw [(Rollback_frame _ _).2.1, hc]
    · show ((insertOfCreateSubnet4 env db S N U).1.Rollback (db.nextTx + 1)).log = _
      rw [(Rollback_frame _ _).1, hl]
      simp

theorem failed_insert_rolls_back_witness :
    ((insertOfCreateSharedNetwork4 calmEnv sameNameStore sampleServer sampleNetwork).2.2.Error
        = some (GormError.duplicateEntry "network_test1") ∧
      (CreateSharedNetwork4 calmEnv sameNameStore sampleServer sampleNetwork).2.2
        = some (GormError.duplicateEntry "network_test1") ∧
      (CreateSharedNetwork4 calmEnv sameNameStore sampleServer sampleNetwork).1.committed
        = sameNameStore.committed ∧
      (CreateSharedNetwork4 calmEnv sameNameStore sampleServer sampleNetwork).1.log
        = [TxEvent.begin 0, TxEvent.rollback 0]) ∧
    ((insertOfCreateSubnet4 calmEnv sameKeyStore sampleServer sampleNetwork
        sampleSubnet).2.2.Error = some (GormError.duplicateEntry "192.168.101.0/24") ∧
      (CreateSubnet4 calmEnv sameKeyStore sampleServer sampleNetwork sampleSubnet).2.2
        = some (GormError.duplicateEntry "192.168.101.0/24") ∧
      (CreateSubnet4 calmEnv sameKeyStore sampleServer sampleNetwork sampleSubnet).1.committed
        = sameKeyStore.committed ∧
      (CreateSubnet4 calmEnv sameKeyStore sampleServer sampleNetwork sampleSubnet).1.log
        = [TxEvent.begin 0, TxEvent.begin 1, TxEvent.rollback 1]) :=
  ⟨⟨by decide,
      (failed_insert_rolls_back calmEnv sameNameStore sampleServer sampleNetwork
        sampleSubnet).1 _ (by decide)⟩,
    ⟨by decide,
      (failed_insert_rolls_back calmEnv sameKeyStore sampleServer sampleNetwork
        sampleSubnet).2 _ (by decide)⟩⟩

/-- C4, the claim as stated fails: the audit statement fails, and
`CreateSharedNetwork4` still returns no error and commits the network row, with
no audit revision. -/
theorem audit_failure_still_commits :
    (CreateSharedNetwork4 auditFailEnv (storeOf Tables.empty) sampleServer
        sampleNetwork).2.2 = none ∧
      (CreateSharedNetwork4 auditFailEnv (storeOf Tables.empty) sampleServer
        sampleNetwork).1.committed.dhcp4_shared_network.map (fun r => r.Name)
        = ["network_test1"] ∧
      (CreateSharedNetwork4 auditFailEnv (storeOf Tables.empty) sampleServer
        sampleNetwork).1.committed.dhcp4_audit_revision = [] := by
  decide

/-- C4, amended: in `CreateSharedNetwork4` and in `CreateSubnet4` the outcome of the
audit statement is not looked at.  When that statement fails the operation
returns the error of the entity insert if it has one and otherwise that of the
commit; when it returns an error nothing is committed; when it returns none the
entity row is committed and the audit table is as before the call. -/
theorem audit_failure_outcome (env : Env) (db : Store) (S : DHCP4Server)
    (N : DHCP4SharedNetwork) (U : DHCP4Subnet) (hwf : db.WF) (e : GormError)
    (hexec : env.execErr = some e) :
    ((CreateSharedNetwork4 env db S N).2.2 =
        (match (insertOfCreateSharedNetwork4 env db S N).2.2.Error with
         | some x => some x
         | none => env.commitErr) ∧
      ((CreateSharedNetwork4 env db S N).2.2 ≠ none →
        (CreateSharedNetwork4 env db S N).1.committed = db.committed) ∧
      ((CreateSharedNetwork4 env db S N).2.2 = none →
        (CreateSharedNetwork4 env db S N).1.committed.dhcp4_shared_network =
          db.committed.dhcp4_shared_network ++
            [{ (CreateSharedNetwork4 env db S N).2.1 with Servers := none }] ∧
        (CreateSharedNetwork4 env db S N).1.committed.dhcp4_audit_revision =
          db.committed.dhcp4_audit_revision)) ∧
    ((CreateSubnet4 env db S N U).2.2 =
        (match (insertOfCreateSubnet4 env db S N U).2.2.Error with
         | some x => some x
         | none => env.commitErr) ∧
      ((CreateSubnet4 env db S N U).2.2 ≠ none →
        (CreateSubnet4 env db S N U).1.committed = db.committed) ∧
      ((CreateSubnet4 env db S N U).2.2 = none →
        (CreateSubnet4 env db S N U).1.committed.dhcp4_subnet =
          db.committed.dhcp4_subnet ++
            [{ (CreateSubnet4 env db S N U).2.1 with Servers := none }] ∧
        (CreateSubnet4 env db S N U).1.committed.dhcp4_audit_revision =
          db.committed.dhcp4_audit_revision)) := by
  have hrows : ∀ ts tag msg, auditRows ts tag msg env.execErr = [] := by
    intro ts tag msg
    rw [hexec]
    rfl
  obtain ⟨_, _, hn⟩ := CreateSharedNetwork4_outcome env db S N hwf
  obtain ⟨_, _, hs⟩ := CreateSubnet4_outcome env db S N U hwf
  refine ⟨⟨CreateSharedNetwork4_error env db S N, ?_, ?_⟩,
    ⟨CreateSubnet4_error env db S N U, ?_, ?_⟩⟩
  · intro herr
    rcases hn with ⟨_, hc⟩ | ⟨hok, _⟩
    · exact hc
    · exact absurd hok herr
  · intro hok
    rcases hn with ⟨herr, _⟩ | ⟨_, _, _, hrow, haud, _⟩
    · exact absurd hok herr
    · rw [hrows] at haud
      exact ⟨hrow, by simpa using haud⟩
  · intro herr
    rcases hs with ⟨_, hc⟩ | ⟨hok, _⟩
    · exact hc
    · exact absurd hok herr
  · intro hok
    rcases hs with ⟨herr, _⟩ | ⟨_, _, _, _, hrow, haud, _⟩
    · exact absurd hok herr
    · rw [hrows] at haud
      exact ⟨hrow, by simpa using haud⟩

theorem audit_failure_outcome_witness :
    ((CreateSharedNetwork4 auditFailEnv (storeOf Tables.empty) sampleServer
          sampleNetwork).2.2 = none ∧
        (CreateSharedNetwork4 auditFailEnv (storeOf Tables.empty) sampleServer
          sampleNetwork).1.committed.dhcp4_shared_network =
          (storeOf Tables.empty).committed.dhcp4_shared_network ++
            [{ (CreateSharedNetwork4 auditFailEnv (storeOf Tables.empty) sampleServer
                  sampleNetwork).2.1 with Servers := none }] ∧
        (CreateSharedNetwork4 auditFailEnv (storeOf Tables.empty) sampleServer
          sampleNetwork).1.committed.dhcp4_audit_revision =
          (storeOf Tables.empty).committed.dhcp4_audit_revision) ∧
      ((CreateSubnet4 auditFailEnv sameKeyStore sampleServer sampleNetwork
          sampleSubnet).2.2 ≠ none ∧
        (CreateSubnet4 auditFailEnv sameKeyStore sampleServer sampleNetwork
          sampleSubnet).1.committed = sameKeyStore.committed) :=
  ⟨⟨by decide,
      (audit_failure_outcome auditFailEnv (storeOf Tables.empty) sampleServer sampleNetwork
        sampleSubnet (by decide) _ rfl).1.2.2 (by decide)⟩,
    ⟨by decide,
      (audit_failure_outcome auditFailEnv sameKeyStore sampleServer sampleNetwork
        sampleSubnet (by decide) _ rfl).2.2.1 (by decide)⟩⟩

/-- C8, the claim as stated fails: the audit statement fails, the insert and the
commit succeed, and `CreateSubnet4` returns no error having added no audit
revision to the committed store. -/
theorem success_without_audit_revision :
    (CreateSubnet4 auditFailEnv oneSubnetStore sampleServer sampleNetwork
        sampleSubnet).2.2 = none ∧
      (CreateSubnet4 auditFailEnv oneSubnetStore sampleServer sampleNetwork
        sampleSubnet).1.committed.dhcp4_subnet.map (fun r => r.Prefix)
        = ["10.0.0.0/8", "192.168.101.0/24"] ∧
      (CreateSubnet4 auditFailEnv oneSubnetStore sampleServer sampleNetwork
        sampleSubnet).1.committed.dhcp4_audit_revision
        = oneSubnetStore.committed.dhcp4_audit_revision := by
  decide

/-- C8, amended: every create operation that returns no error and whose audit
statement succeeded adds exactly one audit revision to the committed store: the
audit table after the call is the one before followed by one revision, whose
message is "add new shared network: " and the network's name for
`CreateSharedNetwork4`, "add new subnet: " and the subnet's prefix for
`CreateSubnet4`, with the acting server's tag and the flag set. -/
theorem success_adds_one_audit_revision (env : Env) (db : Store) (S : DHCP4Server)
    (N : DHCP4SharedNetwork) (U : DHCP4Subnet) (hwf : db.WF)
    (hexec : env.execErr = none) :
    ((CreateSharedNetwork4 env db S N).2.2 = none →
        (CreateSharedNetwork4 env db S N).1.committed.dhcp4_audit_revision =
          db.committed.dhcp4_audit_revision ++
            [{ ts := env.auditNow, serverTag := S.Tag,
               message := "add new shared network: " ++ N.Name,
               affectsConfig := true }]) ∧
      ((CreateSubnet4 env db S N U).2.2 = none →
        (CreateSubnet4 env db S N U).1.committed.dhcp4_audit_revision =
          db.committed.dhcp4_audit_revision ++
            [{ ts := env.auditNow, serverTag := S.Tag,
               message := "add new subnet: " ++ U.Prefix,
               affectsConfig := true }]) := by
  obtain ⟨_, _, hn⟩ := CreateSharedNetwork4_outcome env db S N hwf
  obtain ⟨_, _, hs⟩ := CreateSubnet4_outcome env db S N U hwf
  constructor
  · intro hok
    rcases hn with ⟨herr, _⟩ | ⟨_, _, _, _, haud, _⟩
    · exact absurd hok herr
    · rw [haud, hexec]; rfl
  · intro hok
    rcases hs with ⟨herr, _⟩ | ⟨_, _, _, _, _, haud, _⟩
    · exact absurd hok herr
    · rw [haud, hexec]; rfl

theorem success_adds_one_audit_revision_witness :
    ((CreateSharedNetwork4 calmEnv (storeOf Tables.empty) sampleServer sampleNetwork).2.2
        = none ∧
      (CreateSharedNetwork4 calmEnv (storeOf Tables.empty) sampleServer
        sampleNetwork).1.committed.dhcp4_audit_revision =
        (storeOf Tables.empty).committed.dhcp4_audit_revision ++
          [{ ts := calmEnv.auditNow, serverTag := sampleServer.Tag,
             message := "add new shared network: " ++ sampleNetwork.Name,
             affectsConfig := true }]) ∧
    ((CreateSubnet4 calmEnv oneSubnetStore sampleServer sampleNetwork sampleSubnet).2.2
        = none ∧
      (CreateSubnet4 calmEnv oneSubnetStore sampleServer sampleNetwork
        sampleSubnet).1.committed.dhcp4_audit_revision =
        oneSubnetStore.committed.dhcp4_audit_revision ++
          [{ ts := calmEnv.auditNow, serverTag := sampleServer.Tag,
             message := "add new subnet: " ++ sampleSubnet.Prefix,
             affectsConfig := true }]) :=
  ⟨⟨by decide,
      (success_adds_one_audit_revision calmEnv (storeOf Tables.empty) sampleServer
        sampleNetwork sampleSubnet (by decide) rfl).1 (by decide)⟩,
    ⟨by decide,
      (success_adds_one_audit_revision calmEnv oneSubnetStore sampleServer
        sampleNetwork sampleSubnet (by decide) rfl).2 (by decide)⟩⟩

/-! ## Open transactions -/

/-- C6, evaluated on the code: whatever the store and the input, when
`CreateSubnet4` returns the transaction opened by `audit` is still open; the
calls on transactions during the operation are the two begins and one rollback
or commit, of the second transaction only. -/
theorem CreateSubnet4_leaves_audit_tx_open (env : Env) (db : Store) (S : DHCP4Server)
    (N : DHCP4SharedNetwork) (U : DHCP4Subnet) :
    db.nextTx ∈ (CreateSubnet4 env db S N U).1.openTxs ∧
      ((CreateSubnet4 env db S N U).1.log =
          db.log ++ [TxEvent.begin db.nextTx, TxEvent.begin (db.nextTx + 1),
            TxEvent.rollback (db.nextTx + 1)] ∨
        (CreateSubnet4 env db S N U).1.log =
          db.log ++ [TxEvent.begin db.nextTx, TxEvent.begin (db.nextTx + 1),
            TxEvent.commit (db.nextTx + 1)]) := by
  obtain ⟨ho, _, hl, _⟩ := insertOfCreateSubnet4_frame env db S N U
  have hmem : db.nextTx ∈ (insertOfCreateSubnet4 env db S N U).1.openTxs := by
    rw [ho]; simp
  rw [CreateSubnet4_unfold]
  split_ifs with herr
  · constructor
    · exact (Rollback_frame _ _).2.2 _ hmem (by omega)
    · left
      show ((insertOfCreateSubnet4 env db S N U).1.Rollback (db.nextTx + 1)).log = _
      rw [(Rollback_frame _ _).1, hl]
      simp
  · constructor
    · exact (Commit_frame _ _ _).2.2.2 _ hmem (by omega)
    · right
      show ((insertOfCreateSubnet4 env db S N U).1.Commit (db.nextTx + 1) env.commitErr).1.log
        = _
      rw [(Commit_frame _ _ _).1, hl]
      simp

/-- The sibling path: on a well-numbered store `CreateSharedNetwork4` leaves open
exactly the transactions open before the call, its own being closed by one
rollback or one commit. -/
theorem CreateSharedNetwork4_closes_its_tx (env : Env) (db : Store) (S : DHCP4Server)
    (N : DHCP4SharedNetwork) (hwf : db.WF) :
    (CreateSharedNetwork4 env db S N).1.openTxs = db.openTxs ∧
      ((CreateSharedNetwork4 env db S N).1.log =
          db.log ++ [TxEvent.begin db.nextTx, TxEvent.rollback db.nextTx] ∨
        (CreateSharedNetwork4 env db S N).1.log =
          db.log ++ [TxEvent.begin db.nextTx, TxEvent.commit db.nextTx]) := by
  obtain ⟨hp, _, _⟩ := CreateSharedNetwork4_outcome env db S N hwf
  obtain ⟨_, _, hl, _⟩ := insertOfCreateSharedNetwork4_frame env db S N
  refine ⟨by simp [Store.openTxs, hp], ?_⟩
  rw [CreateSharedNetwork4_unfold]
  split_ifs with herr
  · left
    show ((insertOfCreateSharedNetwork4 env db S N).1.Rollback db.nextTx).log = _
    rw [(Rollback_frame _ _).1, hl]
    simp
  · right
    show ((insertOfCreateSharedNetwork4 env db S N).1.Commit db.nextTx env.commitErr).1.log
      = _
    rw [(Commit_frame _ _ _).1, hl]
    simp

/-! ## Slices and the heap -/

theorem getElem?_window {α : Type} (l : List α) (o n k : Nat) :
    ((l.drop o).take n)[k]? = if k < n then l[o + k]? else none := by
  simp only [List.getElem?_take, List.getElem?_drop]

/-- Writing right after a window of a list and widening the window by one appends
the written element to the window. -/
theorem window_set_append {α : Type} (l : List α) (o n : Nat) (x : α)
    (h : o + n < l.length) :
    ((l.set (o + n) x).drop o).take (n + 1) = (l.drop o).take n ++ [x] := by
  apply List.ext_getElem?
  intro k
  rw [getElem?_window]
  by_cases hk : k < n
  · have h1 : k < n + 1 := by omega
    have h2 : ((l.drop o).take n ++ [x])[k]? = ((l.drop o).take n)[k]? := by
      apply List.getElem?_append_left
      simp
      omega
    rw [if_pos h1, h2, getElem?_window, if_pos hk, List.getElem?_set]
    have : ¬ (o + n = o + k) := by omega
    simp [this]
  · by_cases hn : k = n
    · subst hn
      have hlen : ((l.drop o).take k).length = k := by simp; omega
      rw [if_pos (by omega), List.getElem?_set]
      simp [h]
      rw [List.getElem?_append_right (by omega)]
      simp [hlen]
    · have hlen : ((l.drop o).take n).length = n := by simp; omega
      rw [if_neg (by omega)]
      symm
      apply List.getElem?_eq_none
      simp
      omega

/-- Writing `x` anywhere in a list keeps `x` in every window that held it. -/
theorem mem_window_set {α : Type} (l : List α) (o n i : Nat) (x : α)
    (h : x ∈ (l.drop o).take n) : x ∈ ((l.set i x).drop o).take n := by
  rw [List.mem_iff_getElem?] at h ⊢
  obtain ⟨k, hk⟩ := h
  refine ⟨k, ?_⟩
  rw [getElem?_window] at hk ⊢
  by_cases hkn : k < n
  · rw [if_pos hkn] at hk ⊢
    rw [List.getElem?_set]
    by_cases hi : i = o + k
    · have hlt : o + k < l.length := by
        by_contra hc
        rw [List.getElem?_eq_none (by omega)] at hk
        exact absurd hk (by simp)
      subst hi
      simp [hlt]
    · simp [hi, hk]
  · rw [if_neg hkn] at hk
    exact absurd hk (by simp)

theorem getD_set_same (h : Heap) (a : Nat) (v : List (Option DHCP4Server))
    (ha : a < h.length) : (h.set a v).getD a [] = v := by
  simp [List.getD_eq_getElem?_getD, List.getElem?_set, ha]

theorem getD_set_other (h : Heap) (a b : Nat) (v : List (Option DHCP4Server))
    (hab : b ≠ a) : (h.set a v).getD b [] = h.getD b [] := by
  simp [List.getD_eq_getElem?_getD, List.getElem?_set, Ne.symm hab]

theorem getD_append_old (h : Heap) (v : List (Option DHCP4Server)) (b : Nat)
    (hb : b < h.length) : (h ++ [v]).getD b [] = h.getD b [] := by
  simp [List.getD_eq_getElem?_getD, List.getElem?_append_left hb]

theorem getD_append_new (h : Heap) (v : List (Option DHCP4Server)) :
    (h ++ [v]).getD h.length [] = v := by
  simp [List.getD_eq_getElem?_getD]

theorem getD_out (h : Heap) (b : Nat) (hb : h.length ≤ b) : h.getD b [] = [] := by
  simp [List.getD_eq_getElem?_getD, List.getElem?_eq_none hb]

/-- A slice with spare capacity has its backing array in the heap. -/
theorem valid_arr_lt (h : Heap) (s : Slice) (hv : h.valid (some s)) (hroom : s.len < s.cap) :
    s.arr < h.length := by
  by_contra hc
  have := getD_out h s.arr (by omega)
  simp only [Heap.valid, this, List.length_nil] at hv
  omega

theorem elems_length (h : Heap) (s : Slice) (hv : h.valid (some s)) :
    (h.elems (some s)).length = s.len := by
  simp only [Heap.valid] at hv
  simp only [Heap.elems, List.length_take, List.length_drop]
  omega

/-- After `append` the returned slice holds the elements it held and the new one. -/
theorem goAppend_own (h : Heap) (s : Slice) (x : Option DHCP4Server) (c : Nat)
    (hv : h.valid (some s)) :
    (goAppend h s x c).1.elems (some (goAppend h s x c).2) = h.elems (some s) ++ [x] := by
  unfold goAppend
  split_ifs with hroom
  · have ha := valid_arr_lt h s hv hroom
    simp only [Heap.valid] at hv
    simp only [Heap.elems, getD_set_same _ _ _ ha]
    exact window_set_append _ _ _ _ (by omega)
  · have hl := elems_length h s hv
    have key : ∀ (E r : List (Option DHCP4Server)), E.length = s.len →
        List.take (s.len + 1) (E ++ [x] ++ r) = E ++ [x] := by
      intro E r hE
      rw [← hE, List.append_assoc, List.take_append]
      simp
    simp only [Heap.elems] at hl ⊢
    rw [getD_append_new, List.drop_zero]
    exact key _ _ hl

/-- `append` leaves the elements of every other slice alone, unless it writes in
place and the other slice shares the backing array. -/
theorem goAppend_other (h : Heap) (s : Slice) (x : Option DHCP4Server) (c : Nat)
    (t : Slice) (ht : h.valid (some t)) (hne : s.len < s.cap → t.arr ≠ s.arr) :
    (goAppend h s x c).1.elems (some t) = h.elems (some t) := by
  unfold goAppend
  split_ifs with hroom
  · simp only [Heap.elems, getD_set_other _ _ _ _ (hne hroom)]
  · simp only [Heap.elems]
    by_cases hlt : t.arr < h.length
    · rw [getD_append_old _ _ _ hlt]
    · simp only [Heap.valid, getD_out h t.arr (by omega), List.length_nil] at ht
      have h0 : t.len = 0 := by omega
      simp [h0]

/-- `append` of `x` keeps `x` in every slice that held it. -/
theorem goAppend_mem (h : Heap) (s : Slice) (x : Option DHCP4Server) (c : Nat)
    (t : Slice) (ht : h.valid (some t)) (hx : x ∈ h.elems (some t)) :
    x ∈ (goAppend h s x c).1.elems (some t) := by
  by_cases hne : s.len < s.cap → t.arr ≠ s.arr
  · rw [goAppend_other h s x c t ht hne]
    exact hx
  · have hroom : s.len < s.cap := by
      by_contra hc
      exact hne (fun hr => absurd hr hc)
    have harr : t.arr = s.arr := by
      by_contra hc
      exact hne (fun _ => hc)
    have hlt : s.arr < h.length := by
      by_contra hc
      rw [Heap.elems, harr, getD_out h s.arr (by omega)] at hx
      simp at hx
    unfold goAppend
    rw [if_pos hroom]
    simp only [Heap.elems, harr, getD_set_same _ _ _ hlt] at hx ⊢
    exact mem_window_set _ _ _ _ _ hx

theorem getD_length_le (h : Heap) (s : Slice) (x : Option DHCP4Server) (c : Nat) (a : Nat) :
    (h.getD a []).length ≤ ((goAppend h s x c).1.getD a []).length := by
  unfold goAppend
  split_ifs with hroom
  · by_cases ha : a = s.arr
    · subst ha
      by_cases hlt : s.arr < h.length
      · rw [getD_set_same _ _ _ hlt]
        simp
      · rw [getD_out h s.arr (by omega)]
        simp
    · rw [getD_set_other _ _ _ _ ha]
  · by_cases hlt : a < h.length
    · rw [getD_append_old _ _ _ hlt]
    · rw [getD_out h a (by omega)]
      simp

/-- `append` keeps every slice within its backing array. -/
theorem goAppend_valid (h : Heap) (s : Slice) (x : Option DHCP4Server) (c : Nat)
    (t : Option Slice) (ht : h.valid t) : (goAppend h s x c).1.valid t := by
  cases t with
  | none => trivial
  | some t =>
    have := getD_length_le h s x c t.arr
    simp only [Heap.valid] at ht ⊢
    omega

theorem makeSlice_valid (h : Heap) : h.valid (some makeSlice) := by
  simp [Heap.valid, makeSlice]

theorem orMake_valid (h : Heap) (servers : Option Slice) (hv : h.valid servers) :
    h.valid (some (orMake servers)) := by
  cases servers with
  | none => exact makeSlice_valid h
  | some s => exact hv

theorem elems_orMake (h : Heap) (servers : Option Slice) :
    h.elems (some (orMake servers)) = h.elems servers := by
  cases servers with
  | none => simp [Heap.elems, orMake, makeSlice]
  | some s => rfl

/-- Lines 132-136 and 151-155: the slice they leave holds the elements of the
list before and the server. -/
theorem appendServer_own (h : Heap) (servers : Option Slice) (S : DHCP4Server) (c : Nat)
    (hv : h.valid servers) :
    (appendServer h servers S c).1.elems (some (appendServer h servers S c).2)
      = h.elems servers ++ [some S] := by
  unfold appendServer
  rw [goAppend_own _ _ _ _ (orMake_valid h servers hv), elems_orMake]

/-- Lines 132-136 and 151-155 leave the elements of another list alone, unless
they write in place and the other list shares the backing array. -/
theorem appendServer_other (h : Heap) (servers : Option Slice) (S : DHCP4Server) (c : Nat)
    (t : Option Slice) (ht : h.valid t)
    (hne : ∀ s u, servers = some s → t = some u → s.len < s.cap → u.arr ≠ s.arr) :
    (appendServer h servers S c).1.elems t = h.elems t := by
  cases t with
  | none => rfl
  | some u =>
    unfold appendServer
    apply goAppend_other _ _ _ _ _ ht
    intro hroom
    cases servers with
    | none => simp [orMake, makeSlice] at hroom
    | some s => exact hne s u rfl rfl hroom

/-- Lines 132-136 and 151-155 keep the server in every list that held it. -/
theorem appendServer_mem (h : Heap) (servers : Option Slice) (S : DHCP4Server) (c : Nat)
    (t : Slice) (ht : h.valid (some t)) (hx : some S ∈ h.elems (some t)) :
    some S ∈ (appendServer h servers S c).1.elems (some t) := by
  unfold appendServer
  exact goAppend_mem _ _ _ _ _ ht hx

theorem appendServer_valid (h : Heap) (servers : Option Slice) (S : DHCP4Server) (c : Nat)
    (t : Option Slice) (ht : h.valid t) : (appendServer h servers S c).1.valid t := by
  unfold appendServer
  exact goAppend_valid _ _ _ _ _ ht

/-- The slice lines 132-136 and 151-155 leave lies within its backing array. -/
theorem appendServer_valid_new (h : Heap) (servers : Option Slice) (S : DHCP4Server)
    (c : Nat) (hv : h.valid servers) :
    (appendServer h servers S c).1.valid (some (appendServer h servers S c).2) := by
  have hv2 := orMake_valid h servers hv
  unfold appendServer goAppend
  split_ifs with hroom
  · have ha := valid_arr_lt h _ hv2 hroom
    simp only [Heap.valid] at hv2 ⊢
    rw [getD_set_same _ _ _ ha]
    simp only [List.length_set]
    omega
  · have hl := elems_length h _ hv2
    simp only [Heap.valid, getD_append_new, List.length_append, List.length_replicate,
      List.length_singleton, hl]
    omega

/-- The backing array of the slice lines 132-136 and 151-155 leave: the one of the
list when it had spare capacity, a new one otherwise. -/
theorem appendServer_arr (h : Heap) (servers : Option Slice) (S : DHCP4Server) (c : Nat) :
    (∃ s, servers = some s ∧ s.len < s.cap ∧ (appendServer h servers S c).2.arr = s.arr) ∨
      (appendServer h servers S c).2.arr = h.length := by
  cases servers with
  | none =>
    right
    simp [appendServer, goAppend, orMake, makeSlice]
  | some s =>
    by_cases hroom : s.len < s.cap
    · left
      exact ⟨s, rfl, hroom, by simp [appendServer, goAppend, orMake, hroom]⟩
    · right
      simp [appendServer, goAppend, orMake, hroom]

/-! ## The structs and the memory after the create operations -/

theorem Exec_heap (db : Store) (tx : Nat) (ts : Time) (serverTag message : String)
    (flag : Bool) (err : Option GormError) :
    (db.ExecCreateAuditRevisionDHCP4 tx ts serverTag message flag err).1.heap = db.heap := by
  cases err <;> rfl

theorem CreateSharedNetwork_struct (db : Store) (tx : Nat) (env : Env)
    (network : DHCP4SharedNetwork) :
    (db.CreateSharedNetwork tx env network).2.1.Name = network.Name ∧
      (db.CreateSharedNetwork tx env network).2.1.Servers = network.Servers ∧
      (db.CreateSharedNetwork tx env network).1.heap = db.heap := by
  unfold Store.CreateSharedNetwork DHCP4SharedNetwork.BeforeCreate
  simp only []
  split
  · exact ⟨rfl, rfl, rfl⟩
  · split_ifs <;> exact ⟨rfl, rfl, rfl⟩

theorem generateID_struct (subnet : DHCP4Subnet) (db : DB) (lastSubnet4 : DHCP4Subnet) :
    (subnet.generateID db lastSubnet4).1.SharedNetworkName = subnet.SharedNetworkName ∧
      (subnet.generateID db lastSubnet4).1.Servers = subnet.Servers ∧
      (subnet.generateID db lastSubnet4).1.Prefix = subnet.Prefix := by
  unfold DHCP4Subnet.generateID
  split_ifs <;> exact ⟨rfl, rfl, rfl⟩

theorem BeforeCreate_struct (subnet : DHCP4Subnet) (scope : Scope) :
    (subnet.BeforeCreate scope).1.SharedNetworkName = subnet.SharedNetworkName ∧
      (subnet.BeforeCreate scope).1.Servers = subnet.Servers ∧
      (subnet.BeforeCreate scope).1.Prefix = subnet.Prefix := by
  unfold DHCP4Subnet.BeforeCreate
  exact generateID_struct _ _ _

theorem CreateSubnet_struct (db : Store) (tx : Nat) (env : Env) (subnet : DHCP4Subnet) :
    (db.CreateSubnet tx env subnet).2.1.SharedNetworkName = subnet.SharedNetworkName ∧
      (db.CreateSubnet tx env subnet).2.1.Servers = subnet.Servers ∧
      (db.CreateSubnet tx env subnet).1.heap = db.heap := by
  have h := BeforeCreate_struct subnet
    { rows := (db.view tx).dhcp4_subnet, queryErr := env.queryErr, now := env.hookNow }
  unfold Store.CreateSubnet
  simp only []
  split
  · exact ⟨h.1, h.2.1, rfl⟩
  · split
    · exact ⟨h.1, h.2.1, rfl⟩
    · split_ifs <;> exact ⟨h.1, h.2.1, rfl⟩

theorem Commit_heap (d : Store) (tx : Nat) (err : Option GormError) :
    (d.Commit tx err).1.heap = d.heap := by
  cases err <;> rfl

/-- The struct and the memory `CreateSharedNetwork4` leaves, whatever it returns:
the name is untouched, `Servers` and the heap are the ones lines 132-136
leave. -/
theorem CreateSharedNetwork4_memory (env : Env) (db : Store) (S : DHCP4Server)
    (N : DHCP4SharedNetwork) :
    (CreateSharedNetwork4 env db S N).2.1.Name = N.Name ∧
      (CreateSharedNetwork4 env db S N).2.1.Servers
        = some (appendServer db.heap N.Servers S env.growCap).2 ∧
      (CreateSharedNetwork4 env db S N).1.heap
        = (appendServer db.heap N.Servers S env.growCap).1 := by
  have hx := Exec_heap db.Begin.1 db.Begin.2 env.auditNow S.Tag
    ("add new shared network: " ++ N.Name) true env.execErr
  have hb : db.Begin.1.heap = db.heap := rfl
  have hi : (insertOfCreateSharedNetwork4 env db S N).2.1.Name = N.Name ∧
      (insertOfCreateSharedNetwork4 env db S N).2.1.Servers
        = some (appendServer db.heap N.Servers S env.growCap).2 ∧
      (insertOfCreateSharedNetwork4 env db S N).1.heap
        = (appendServer db.heap N.Servers S env.growCap).1 := by
    unfold insertOfCreateSharedNetwork4
    simp only []
    rw [hx, hb]
    exact CreateSharedNetwork_struct _ _ _ _
  rw [CreateSharedNetwork4_unfold]
  split_ifs
  · exact ⟨hi.1, hi.2.1, hi.2.2⟩
  · exact ⟨hi.1, hi.2.1, (Commit_heap _ _ _).trans hi.2.2⟩

/-- The struct and the memory `CreateSubnet4` leaves, whatever it returns: the
shared-network reference is the network's name, `Servers` and the heap are the
ones lines 151-155 leave. -/
theorem CreateSubnet4_memory (env : Env) (db : Store) (S : DHCP4Server)
    (N : DHCP4SharedNetwork) (U : DHCP4Subnet) :
    (CreateSubnet4 env db S N U).2.1.SharedNetworkName = some N.Name ∧
      (CreateSubnet4 env db S N U).2.1.Servers
        = some (appendServer db.heap U.Servers S env.growCap).2 ∧
      (CreateSubnet4 env db S N U).1.heap
        = (appendServer db.heap U.Servers S env.growCap).1 := by
  have ha : (audit db S.Tag env.helperMessage env.helperNow env.helperExecErr).1.heap
      = db.heap := by
    unfold audit
    exact Exec_heap _ _ _ _ _ _ _
  have hx := Exec_heap
    (audit db S.Tag env.helperMessage env.helperNow env.helperExecErr).1.Begin.1
    (audit db S.Tag env.helperMessage env.helperNow env.helperExecErr).1.Begin.2
    env.auditNow S.Tag ("add new subnet: " ++ U.Prefix) true env.execErr
  have hb : (audit db S.Tag env.helperMessage env.helperNow env.helperExecErr).1.Begin.1.heap
      = (audit db S.Tag env.helperMessage env.helperNow env.helperExecErr).1.heap := rfl
  have hi : (insertOfCreateSubnet4 env db S N U).2.1.SharedNetworkName = some N.Name ∧
      (insertOfCreateSubnet4 env db S N U).2.1.Servers
        = some (appendServer db.heap U.Servers S env.growCap).2 ∧
      (insertOfCreateSubnet4 env db S N U).1.heap
        = (appendServer db.heap U.Servers S env.growCap).1 := by
    unfold insertOfCreateSubnet4 insertAfterAudit
    simp only []
    rw [hx, hb, ha]
    exact CreateSubnet_struct _ _ _ _
  rw [CreateSubnet4_unfold]
  split_ifs
  · exact ⟨hi.1, hi.2.1, hi.2.2⟩
  · exact ⟨hi.1, hi.2.1, (Commit_heap _ _ _).trans hi.2.2⟩

/-- C7, the claim as stated fails: with `N.Servers = all[:1]` and
`U.Servers = all[:2]` over one backing array `all = [a, b]`, both calls return
no error, `b` is in the subnet's list before them and no longer after: the
append of `CreateSharedNetwork4` wrote the server over it. -/
theorem shared_array_loses_member :
    (CreateSharedNetwork4 calmEnv oneArrayStore sampleServer firstOfAll).2.2 = none ∧
      (CreateSubnet4 calmEnv
        (CreateSharedNetwork4 calmEnv oneArrayStore sampleServer firstOfAll).1 sampleServer
        (CreateSharedNetwork4 calmEnv oneArrayStore sampleServer firstOfAll).2.1
        bothOfAll).2.2 = none ∧
      some serverB ∈ oneArrayStore.heap.elems bothOfAll.Servers ∧
      some serverB ∉
        (CreateSubnet4 calmEnv
          (CreateSharedNetwork4 calmEnv oneArrayStore sampleServer firstOfAll).1 sampleServer
          (CreateSharedNetwork4 calmEnv oneArrayStore sampleServer firstOfAll).2.1
          bothOfAll).1.heap.elems
          (CreateSubnet4 calmEnv
            (CreateSharedNetwork4 calmEnv oneArrayStore sampleServer firstOfAll).1
            sampleServer
            (CreateSharedNetwork4 calmEnv oneArrayStore sampleServer firstOfAll).2.1
            bothOfAll).2.1.Servers := by
  decide

/-- C7, amended: for every server S, network N and subnet U whose `Servers` slices
lie within their backing arrays, after `CreateSharedNetwork4(S, N)` followed by
`CreateSubnet4(S, N, U)`, whatever the store answers, the subnet's
shared-network reference is set and equals the network's name, the server is in
the network's list and in the subnet's list; and, provided the two lists do not
share a backing array, the elements either list held before the calls (none for
a nil list) are still there. -/
theorem create_network_then_subnet_associates (env1 env2 : Env) (db : Store)
    (S : DHCP4Server) (N : DHCP4SharedNetwork) (U : DHCP4Subnet)
    (hN : db.heap.valid N.Servers) (hU : db.heap.valid U.Servers) :
    (CreateSubnet4 env2 (CreateSharedNetwork4 env1 db S N).1 S
        (CreateSharedNetwork4 env1 db S N).2.1 U).2.1.SharedNetworkName
        = some (CreateSharedNetwork4 env1 db S N).2.1.Name ∧
      (CreateSharedNetwork4 env1 db S N).2.1.Name = N.Name ∧
      some S ∈
        (CreateSubnet4 env2 (CreateSharedNetwork4 env1 db S N).1 S
          (CreateSharedNetwork4 env1 db S N).2.1 U).1.heap.elems
          (CreateSharedNetwork4 env1 db S N).2.1.Servers ∧
      some S ∈
        (CreateSubnet4 env2 (CreateSharedNetwork4 env1 db S N).1 S
          (CreateSharedNetwork4 env1 db S N).2.1 U).1.heap.elems
          (CreateSubnet4 env2 (CreateSharedNetwork4 env1 db S N).1 S
            (CreateSharedNetwork4 env1 db S N).2.1 U).2.1.Servers ∧
      (¬ sharesArray N.Servers U.Servers →
        (∀ x ∈ db.heap.elems N.Servers,
          x ∈ (CreateSubnet4 env2 (CreateSharedNetwork4 env1 db S N).1 S
            (CreateSharedNetwork4 env1 db S N).2.1 U).1.heap.elems
            (CreateSharedNetwork4 env1 db S N).2.1.Servers) ∧
        (∀ x ∈ db.heap.elems U.Servers,
          x ∈ (CreateSubnet4 env2 (CreateSharedNetwork4 env1 db S N).1 S
            (CreateSharedNetwork4 env1 db S N).2.1 U).1.heap.elems
            (CreateSubnet4 env2 (CreateSharedNetwork4 env1 db S N).1 S
              (CreateSharedNetwork4 env1 db S N).2.1 U).2.1.Servers)) := by
  obtain ⟨hname, hsN, hh1⟩ := CreateSharedNetwork4_memory env1 db S N
  obtain ⟨href, hsU, hh2⟩ := CreateSubnet4_memory env2 (CreateSharedNetwork4 env1 db S N).1 S
    (CreateSharedNetwork4 env1 db S N).2.1 U
  rw [hh1] at hsU hh2
  rw [href, hsN, hsU, hh2]
  -- the two appends, on the heap before the calls and on the heap between them
  have hown1 := appendServer_own db.heap N.Servers S env1.growCap hN
  have hnew1 := appendServer_valid_new db.heap N.Servers S env1.growCap hN
  have hU1 := appendServer_valid db.heap N.Servers S env1.growCap U.Servers hU
  have hown2 := appendServer_own (appendServer db.heap N.Servers S env1.growCap).1
    U.Servers S env2.growCap hU1
  have hS1 : some S ∈ (appendServer db.heap N.Servers S env1.growCap).1.elems
      (some (appendServer db.heap N.Servers S env1.growCap).2) := by
    rw [hown1]; simp
  refine ⟨rfl, hname, ?_, ?_, ?_⟩
  · exact appendServer_mem _ _ _ _ _ hnew1 hS1
  · rw [hown2]; simp
  · intro hshare
    constructor
    · intro x hx
      rw [appendServer_other _ U.Servers S env2.growCap _ hnew1]
      · rw [hown1]
        exact List.mem_append_left _ hx
      · intro u t hu ht hroom
        cases ht
        rcases appendServer_arr db.heap N.Servers S env1.growCap with ⟨s, hs, _, harr⟩ | harr
        · rw [harr]
          intro heq
          apply hshare
          rw [hs, hu]
          exact heq
        · rw [harr]
          have hlt := valid_arr_lt db.heap u (by rw [← hu]; exact hU) hroom
          omega
    · intro x hx
      rw [hown2]
      apply List.mem_append_left
      rw [appendServer_other _ N.Servers S env1.growCap _ hU]
      · exact hx
      · intro s u hs hu _ heq
        apply hshare
        rw [hs, hu]
        exact heq.symm

theorem create_network_then_subnet_associates_witness :
    some sampleServer ∈
        (CreateSubnet4 calmEnv
          (CreateSharedNetwork4 calmEnv twoArrayStore sampleServer networkOnFirst).1
          sampleServer
          (CreateSharedNetwork4 calmEnv twoArrayStore sampleServer networkOnFirst).2.1
          subnetOnSecond).1.heap.elems
          (CreateSharedNetwork4 calmEnv twoArrayStore sampleServer networkOnFirst).2.1.Servers ∧
      (∀ x ∈ twoArrayStore.heap.elems subnetOnSecond.Servers,
        x ∈ (CreateSubnet4 calmEnv
          (CreateSharedNetwork4 calmEnv twoArrayStore sampleServer networkOnFirst).1
          sampleServer
          (CreateSharedNetwork4 calmEnv twoArrayStore sampleServer networkOnFirst).2.1
          subnetOnSecond).1.heap.elems
          (CreateSubnet4 calmEnv
            (CreateSharedNetwork4 calmEnv twoArrayStore sampleServer networkOnFirst).1
            sampleServer
            (CreateSharedNetwork4 calmEnv twoArrayStore sampleServer networkOnFirst).2.1
            subnetOnSecond).2.1.Servers) :=
  ⟨(create_network_then_subnet_associates calmEnv calmEnv twoArrayStore sampleServer
      networkOnFirst subnetOnSecond (by decide) (by decide)).2.2.1,
    ((create_network_then_subnet_associates calmEnv calmEnv twoArrayStore sampleServer
      networkOnFirst subnetOnSecond (by decide) (by decide)).2.2.2.2 (by decide)).2⟩

/-! ## Serialized subnet creations -/

theorem foldl_max_spec (rows : List DHCP4Subnet) (m : Int) :
    m ≤ rows.foldl (fun m r => max m r.ID) m ∧
      (∀ x ∈ rows, x.ID ≤ rows.foldl (fun m r => max m r.ID) m) ∧
      (rows.foldl (fun m r => max m r.ID) m = m ∨
        ∃ x ∈ rows, x.ID = rows.foldl (fun m r => max m r.ID) m) := by
  induction rows generalizing m with
  | nil => simp
  | cons a rest ih =>
    obtain ⟨h1, h2, h3⟩ := ih (max m a.ID)
    simp only [List.foldl_cons]
    refine ⟨le_trans (le_max_left _ _) h1, ?_, ?_⟩
    · intro x hx
      rcases List.mem_cons.mp hx with h | h
      · rw [h]; exact le_trans (le_max_right _ _) h1
      · exact h2 x h
    · rcases h3 with h | ⟨x, hx, hxe⟩
      · rcases max_cases m a.ID with ⟨hm, _⟩ | ⟨hm, _⟩
        · left; rw [h, hm]
        · right; exact ⟨a, List.mem_cons_self _ _, by rw [h, hm]⟩
      · right; exact ⟨x, List.mem_cons_of_mem _ hx, hxe⟩

theorem greatestID_append (rows : List DHCP4Subnet) (r : DHCP4Subnet) :
    greatestID (rows ++ [r]) = max (greatestID rows) r.ID := by
  simp [greatestID, List.foldl_append]

theorem lastRow_nil : lastRow [] = none := rfl

/-- On a table of non-negative identifiers the last row carries `greatestID`. -/
theorem lastRow_ID_eq_greatestID (rows : List DHCP4Subnet) (last : DHCP4Subnet)
    (hlast : lastRow rows = some last) (hpos : ∀ r ∈ rows, 0 ≤ r.ID) :
    last.ID = greatestID rows := by
  have hne : rows ≠ [] := by
    intro h
    rw [h, lastRow_nil] at hlast
    exact absurd hlast (by simp)
  obtain ⟨r, hr, hmem, hall⟩ := lastRow_greatest rows hne
  rw [hlast] at hr
  cases hr
  obtain ⟨h1, h2, h3⟩ := foldl_max_spec rows 0
  have hle : last.ID ≤ greatestID rows := h2 last hmem
  have hge : greatestID rows ≤ last.ID := by
    rcases h3 with h | ⟨x, hx, hxe⟩
    · unfold greatestID
      rw [h]
      exact hpos last hmem
    · unfold greatestID
      rw [← hxe]
      exact hall x hx
  omega

theorem CreateSubnet4_WF (env : Env) (db : Store) (S : DHCP4Server)
    (N : DHCP4SharedNetwork) (U : DHCP4Subnet) (hwf : db.WF) :
    (CreateSubnet4 env db S N U).1.WF := by
  obtain ⟨hp, hn, _⟩ := CreateSubnet4_outcome env db S N U hwf
  intro h hh
  rw [hn]
  simp only [Store.openTxs, hp, List.map_append, List.mem_append, List.map_cons,
    List.map_nil, List.mem_singleton] at hh
  rcases hh with hh | hh
  · have := hwf h hh
    omega
  · omega

/-- One call on a table of non-negative identifiers with room above: either it
returns an error and commits nothing, or it returns none, its identifier is the
greatest one plus one and its row is appended to the committed subnets. -/
theorem CreateSubnet4_step (env : Env) (db : Store) (S : DHCP4Server)
    (N : DHCP4SharedNetwork) (U : DHCP4Subnet) (hwf : db.WF)
    (hids : ∀ r ∈ db.committed.dhcp4_subnet, 0 ≤ r.ID ∧ r.ID < maxInt) :
    ((CreateSubnet4 env db S N U).2.2 ≠ none ∧
        (CreateSubnet4 env db S N U).1.committed = db.committed) ∨
      ((CreateSubnet4 env db S N U).2.2 = none ∧
        db.committed.dhcp4_subnet ≠ [] ∧
        (CreateSubnet4 env db S N U).2.1.ID = greatestID db.committed.dhcp4_subnet + 1 ∧
        (CreateSubnet4 env db S N U).1.committed.dhcp4_subnet =
          db.committed.dhcp4_subnet ++
            [{ (CreateSubnet4 env db S N U).2.1 with Servers := none }]) := by
  obtain ⟨_, _, h⟩ := CreateSubnet4_outcome env db S N U hwf
  rcases h with h | ⟨hok, _, _, ⟨last, hlast, hid⟩, hrow, _, _⟩
  · exact Or.inl h
  · right
    have hne : db.committed.dhcp4_subnet ≠ [] := by
      intro h
      rw [h, lastRow_nil] at hlast
      exact absurd hlast (by simp)
    obtain ⟨r, hr, hmem, _⟩ := lastRow_greatest _ hne
    rw [hlast] at hr
    cases hr
    have hg := lastRow_ID_eq_greatestID _ last hlast (fun r hr => (hids r hr).1)
    have hb := hids last hmem
    have hw : wrapInt (last.ID + 1) = last.ID + 1 := by
      apply wrapInt_of_inRange
      unfold inIntRange minInt
      unfold maxInt at hb ⊢
      omega
    rw [hw] at hid
    have hnz : ¬ (last.ID + 1 = 0) := by omega
    rw [if_neg hnz, hg] at hid
    exact ⟨hok, hne, hid, hrow⟩

theorem assignedIDs_cons_ok (x : DHCP4Subnet × Option GormError)
    (rs : List (DHCP4Subnet × Option GormError)) (h : x.2 = none) :
    assignedIDs (x :: rs) = x.1.ID :: assignedIDs rs := by
  simp [assignedIDs, List.filter_cons, h]

theorem assignedIDs_cons_err (x : DHCP4Subnet × Option GormError)
    (rs : List (DHCP4Subnet × Option GormError)) (h : x.2 ≠ none) :
    assignedIDs (x :: rs) = assignedIDs rs := by
  simp [assignedIDs, List.filter_cons, h]

theorem createSubnets_ids_range (calls : List SubnetCall) (db : Store) (hwf : db.WF)
    (hids : ∀ r ∈ db.committed.dhcp4_subnet, 0 ≤ r.ID ∧ r.ID + calls.length ≤ maxInt) :
    assignedIDs (createSubnets db calls).2 =
      (List.range (assignedIDs (createSubnets db calls).2).length).map
        (fun (i : Nat) => greatestID db.committed.dhcp4_subnet + 1 + (i : Int)) := by
  induction calls generalizing db with
  | nil => simp [createSubnets, assignedIDs]
  | cons c rest ih =>
    have hwf2 := CreateSubnet4_WF c.env db c.server c.sharedNetwork c.subnet hwf
    have hstep := CreateSubnet4_step c.env db c.server c.sharedNetwork c.subnet hwf
      (by
        intro r hr
        have := hids r hr
        simp only [List.length_cons, Nat.cast_add, Nat.cast_one] at this
        constructor
        · exact this.1
        · omega)
    have hunf : createSubnets db (c :: rest) =
        ((createSubnets (CreateSubnet4 c.env db c.server c.sharedNetwork c.subnet).1 rest).1,
          ((CreateSubnet4 c.env db c.server c.sharedNetwork c.subnet).2.1,
            (CreateSubnet4 c.env db c.server c.sharedNetwork c.subnet).2.2) ::
          (createSubnets (CreateSubnet4 c.env db c.server c.sharedNetwork c.subnet).1
            rest).2) := rfl
    rw [hunf]
    rcases hstep with ⟨herr, hc⟩ | ⟨hok, _, hid, hrow⟩
    · have hih := ih _ hwf2 (by
        rw [hc]
        intro r hr
        have := hids r hr
        simp only [List.length_cons, Nat.cast_add, Nat.cast_one] at this
        constructor
        · exact this.1
        · omega)
      rw [hc] at hih
      simp only []
      rw [assignedIDs_cons_err _ _ herr]
      exact hih
    · have hg : greatestID (CreateSubnet4 c.env db c.server c.sharedNetwork
          c.subnet).1.committed.dhcp4_subnet = greatestID db.committed.dhcp4_subnet + 1 := by
        rw [hrow, greatestID_append]
        show max _ (CreateSubnet4 c.env db c.server c.sharedNetwork c.subnet).2.1.ID = _
        rw [hid]
        exact max_eq_right (by omega)
      have hpos : 0 ≤ greatestID db.committed.dhcp4_subnet := (foldl_max_spec _ 0).1
      have hbound : greatestID db.committed.dhcp4_subnet + (rest.length + 1 : Int) ≤ maxInt := by
        rcases (foldl_max_spec db.committed.dhcp4_subnet 0).2.2 with h | ⟨x, hx, hxe⟩
        · unfold greatestID
          rw [h]
          unfold maxInt
          have : (rest.length : Int) + 1 ≤ 2 ^ 63 - 1 := by
            have hne : db.committed.dhcp4_subnet ≠ [] := by assumption
            obtain ⟨y, hy⟩ := List.exists_mem_of_ne_nil _ hne
            have := hids y hy
            simp only [List.length_cons, Nat.cast_add, Nat.cast_one] at this
            unfold maxInt at this
            omega
          omega
        · have := hids x hx
          simp only [List.length_cons, Nat.cast_add, Nat.cast_one] at this
          unfold greatestID
          rw [← hxe]
          exact this.2
      have hih := ih _ hwf2 (by
        rw [hrow]
        intro r hr
        rcases List.mem_append.mp hr with h | h
        · have := hids r h
          simp only [List.length_cons, Nat.cast_add, Nat.cast_one] at this
          constructor
          · exact this.1
          · omega
        · simp only [List.mem_singleton] at h
          rw [h]
          show 0 ≤ (CreateSubnet4 c.env db c.server c.sharedNetwork c.subnet).2.1.ID ∧
            (CreateSubnet4 c.env db c.server c.sharedNetwork c.subnet).2.1.ID
              + (rest.length : Int) ≤ maxInt
          rw [hid]
          constructor
          · omega
          · omega)
      rw [hg] at hih
      simp only []
      rw [assignedIDs_cons_ok _ _ hok]
      simp only [List.length_cons, List.range_succ_eq_map, List.map_cons, List.map_map]
      rw [hid]
      congr 1
      · simp
      · rw [hih]
        simp only [List.length_map, List.length_range]
        apply List.map_congr_left
        intro i _
        simp only [Function.comp, Nat.cast_succ]
        omega

/-- From a table holding identifier 4, three serialized calls of which the second
fails on its key: the two that return no error get 5 and 6. -/
theorem createSubnets_sample_ids :
    assignedIDs (createSubnets oneSubnetStore sampleCalls).2 = [5, 6] := by
  decide

/-- C3, evaluated on the code: for every sequence of serialized `CreateSubnet4`
calls on a well-numbered store whose subnet table is empty, every call returns
an error, so no call is given an identifier, 1 or any other, and the subnet
table is still empty after the last call. -/
theorem createSubnets_empty_table_all_fail (calls : List SubnetCall) (db : Store)
    (hwf : db.WF) (hempty : db.committed.dhcp4_subnet = []) :
    (∀ x ∈ (createSubnets db calls).2, x.2 ≠ none) ∧
      assignedIDs (createSubnets db calls).2 = [] ∧
      (createSubnets db calls).1.committed.dhcp4_subnet = [] := by
  induction calls generalizing db with
  | nil => exact ⟨by simp [createSubnets], rfl, hempty⟩
  | cons c rest ih =>
    have hwf2 := CreateSubnet4_WF c.env db c.server c.sharedNetwork c.subnet hwf
    have hstep := CreateSubnet4_step c.env db c.server c.sharedNetwork c.subnet hwf
      (by rw [hempty]; simp)
    rcases hstep with ⟨herr, hc⟩ | ⟨_, hne, _, _⟩
    · obtain ⟨hall, hids, htab⟩ := ih _ hwf2 (by rw [hc]; exact hempty)
      have hunf : createSubnets db (c :: rest) =
          ((createSubnets (CreateSubnet4 c.env db c.server c.sharedNetwork c.subnet).1
              rest).1,
            ((CreateSubnet4 c.env db c.server c.sharedNetwork c.subnet).2.1,
              (CreateSubnet4 c.env db c.server c.sharedNetwork c.subnet).2.2) ::
            (createSubnets (CreateSubnet4 c.env db c.server c.sharedNetwork c.subnet).1
              rest).2) := rfl
      rw [hunf]
      refine ⟨?_, ?_, htab⟩
      · intro x hx
        rcases List.mem_cons.mp hx with h | h
        · rw [h]; exact herr
        · exact hall x h
      · simp only []
        rw [assignedIDs_cons_err _ _ herr]
        exact hids
    · exact absurd hempty hne

theorem createSubnets_empty_table_all_fail_witness :
    (CreateSubnet4 calmEnv (storeOf Tables.empty) sampleServer sampleNetwork
        sampleSubnet).2.2 = some GormError.ErrRecordNotFound ∧
      (∀ x ∈ (createSubnets (storeOf Tables.empty) sampleCalls).2, x.2 ≠ none) ∧
      assignedIDs (createSubnets (storeOf Tables.empty) sampleCalls).2 = [] ∧
      (createSubnets (storeOf Tables.empty) sampleCalls).1.committed.dhcp4_subnet = [] :=
  ⟨by decide, createSubnets_empty_table_all_fail sampleCalls (storeOf Tables.empty)
    (by decide) rfl⟩

end Kea

namespace IPConvert

theorem or_shift_eq_add (a b i : Nat) (h : b < 2 ^ i) : b ||| a <<< i = 2 ^ i * a + b := by
  rw [Nat.or_comm, Nat.shiftLeft_eq, Nat.mul_comm, Nat.mul_add_lt_is_or h]

/-- Reading four bytes gives the number they spell in base 256. -/
theorem Uint32_bytes (b0 b1 b2 b3 : Nat) (h0 : b0 < 256) (h1 : b1 < 256) (h2 : b2 < 256)
    (h3 : b3 < 256) :
    Uint32 [b0, b1, b2, b3] = some (2 ^ 24 * b0 + (2 ^ 16 * b1 + (2 ^ 8 * b2 + b3))) := by
  have e1 := or_shift_eq_add b2 b3 8 (by omega)
  have e2 := or_shift_eq_add b1 (2 ^ 8 * b2 + b3) 16 (by omega)
  have e3 := or_shift_eq_add b0 (2 ^ 16 * b1 + (2 ^ 8 * b2 + b3)) 24 (by omega)
  have s2 : b2 <<< 8 = b2 * 2 ^ 8 := Nat.shiftLeft_eq _ _
  have s1 : b1 <<< 16 = b1 * 2 ^ 16 := Nat.shiftLeft_eq _ _
  have s0 : b0 <<< 24 = b0 * 2 ^ 24 := Nat.shiftLeft_eq _ _
  have m3 : uint32 b3 = b3 := Nat.mod_eq_of_lt (by omega)
  have m2 : uint32 b2 = b2 := Nat.mod_eq_of_lt (by omega)
  have m1 : uint32 b1 = b1 := Nat.mod_eq_of_lt (by omega)
  have m0 : uint32 b0 = b0 := Nat.mod_eq_of_lt (by omega)
  have n2 : uint32 (b2 <<< 8) = b2 <<< 8 := Nat.mod_eq_of_lt (by omega)
  have n1 : uint32 (b1 <<< 16) = b1 <<< 16 := Nat.mod_eq_of_lt (by omega)
  have n0 : uint32 (b0 <<< 24) = b0 <<< 24 := Nat.mod_eq_of_lt (by omega)
  have k1 : uint32 (2 ^ 8 * b2 + b3) = 2 ^ 8 * b2 + b3 := Nat.mod_eq_of_lt (by omega)
  have k2 : uint32 (2 ^ 16 * b1 + (2 ^ 8 * b2 + b3)) = 2 ^ 16 * b1 + (2 ^ 8 * b2 + b3) :=
    Nat.mod_eq_of_lt (by omega)
  have k3 : uint32 (2 ^ 24 * b0 + (2 ^ 16 * b1 + (2 ^ 8 * b2 + b3)))
      = 2 ^ 24 * b0 + (2 ^ 16 * b1 + (2 ^ 8 * b2 + b3)) := Nat.mod_eq_of_lt (by omega)
  show some _ = some _
  simp only [List.getElem_cons_zero, List.getElem_cons_succ]
  rw [m3, m2, m1, m0, n2, e1, k1, n1, e2, k2, n0, e3, k3]

theorem PutUint32_four (v : Nat) :
    PutUint32 (List.replicate 4 0) v
      = some [byte (v >>> 24), byte (v >>> 16), byte (v >>> 8), byte v] := rfl

/-- C10: for every unsigned 32-bit value `v`, `PutUint32` into a 4-byte address
stores the four bytes of `v`, the most significant first, and `Uint32` of that
address gives `v` back; so does the body of `main`. -/
theorem bigEndian_roundtrip (v : Nat) (hv : v < 2 ^ 32) :
    PutUint32 (List.replicate 4 0) v
        = some [v / 2 ^ 24, v / 2 ^ 16 % 256, v / 2 ^ 8 % 256, v % 256] ∧
      Uint32 [v / 2 ^ 24, v / 2 ^ 16 % 256, v / 2 ^ 8 % 256, v % 256] = some v ∧
      convert v = some ([v / 2 ^ 24, v / 2 ^ 16 % 256, v / 2 ^ 8 % 256, v % 256], v) := by
  have hput : PutUint32 (List.replicate 4 0) v
      = some [v / 2 ^ 24, v / 2 ^ 16 % 256, v / 2 ^ 8 % 256, v % 256] := by
    rw [PutUint32_four]
    simp only [byte, Nat.shiftRight_eq_div_pow]
    have h : v / 2 ^ 24 % 2 ^ 8 = v / 2 ^ 24 := Nat.mod_eq_of_lt (by omega)
    rw [h]
    rfl
  have hget : Uint32 [v / 2 ^ 24, v / 2 ^ 16 % 256, v / 2 ^ 8 % 256, v % 256] = some v := by
    rw [Uint32_bytes _ _ _ _ (by omega) (by omega) (by omega) (by omega)]
    congr 1
    omega
  refine ⟨hput, hget, ?_⟩
  simp only [convert, hput, hget]

theorem bigEndian_roundtrip_witness :
    PutUint32 (List.replicate 4 0) 173218814 = some [10, 83, 27, 254] ∧
      Uint32 [10, 83, 27, 254] = some 173218814 ∧
      main = some ([10, 83, 27, 254], 173218814) :=
  bigEndian_roundtrip 173218814 (by decide)

end IPConvert
